import Mathlib

/-!
# Oracle dialect of gorm: pseudo-sequence allocator and identity-insert hook

A shallow embedding of `dialects/oracle/oracle.go`.

* The package-level variable `sequenceStoreExists`, the counter table (absent, or present
  with its rows) and the statements sent through the database handle are threaded
  explicitly as a `State`.  The source never looks at the outcome of a statement: a
  statement that fails, because the table is absent or already there, has no effect.
* `SequenceStore.Sequence` is a `float64` in the source.  The counter only ever holds
  non-negative whole numbers, so it is embedded as a `Nat`, and the one arithmetic
  operation applied to it (`r.Sequence += 1`) is embedded as `f64AddOne`, the IEEE-754
  binary64 addition of `1` with round-to-nearest, ties-to-even.
* The host ORM (`gorm.Scope`, `gorm.DB`, `gorm.Field`) is not part of the dialect file; the
  few capabilities the dialect calls are modelled from the specification and marked so.
-/

namespace Oracle

/-! ## Data model -/

/-- The record type `SequenceStore` (oracle.go, lines 15-18): one counter row per table
name.  `Sequence` is the float64 counter, carried as the whole number it denotes. -/
structure SequenceStore where
  TableName : String
  Sequence : Nat
  deriving DecidableEq, Repr

/-- A statement sent through the scoped database handle: `CreateTable(&SequenceStore{})`,
the scan of the row of a table name, the save of a record, and a raw query. -/
inductive Stmt where
  | createTable
  | scan (tableName : String)
  | save (r : SequenceStore)
  | raw (sql : String)
  deriving DecidableEq, Repr

/-- The state shared by all allocations of a process: the package variable
`sequenceStoreExists`, the counter table (`none` while it does not exist, `some rows`
with its rows otherwise), the statements issued so far, oldest first, and the advisory
messages logged so far. -/
structure State where
  sequenceStoreExists : Bool
  table : Option (List SequenceStore)
  issued : List Stmt
  logged : List String
  deriving DecidableEq, Repr

/-- The rows of the counter table; an absent table has none. -/
def State.rows (s : State) : List SequenceStore :=
  s.table.getD []

/-- A struct field as the host ORM presents it to the dialect (`gorm.Field`): name,
primary-key mark, blank mark, tag settings and the value currently held, a whole number
like the float64 written by the hook. -/
structure Field where
  Name : String
  IsPrimaryKey : Bool
  IsBlank : Bool
  TagSettings : List (String × String)
  Value : Nat
  deriving DecidableEq, Repr

/-- The part of `gorm.Scope` the dialect reads and writes: the dialect name, the quoted
table name, the fields of the entity and the per-operation key-value settings. -/
structure Scope where
  dialectName : String
  QuotedTableName : String
  fields : List Field
  settings : List (String × Bool)
  deriving DecidableEq, Repr

/-! ## float64 increment -/

/-- The float64 sum `x + 1` for a float64 `x` holding the whole number `n`.
Below `2^53` every whole number is representable and the sum is exact.  From `2^53` up
to `2^54` the representable numbers are the even ones, `n + 1` lies half-way between
`n` and `n + 2`, and the tie goes to the neighbour with an even significand.  From
`2^54` on the representable numbers are at least `4` apart and `n + 1` rounds back to
`n`. -/
def f64AddOne (n : Nat) : Nat :=
  if n < 2 ^ 53 then n + 1
  else if n < 2 ^ 54 then (if (n / 2) % 2 = 0 then n else n + 2)
  else n

/-! ## Capabilities of the host ORM -/

/-- Modelled from the spec: `scope.NewDB().Model(&SequenceStore{}).Where("TABLE_NAME = ?",
t).Scan(&r)` of the host ORM, "running a parameterized query and scanning a single
row".  The destination starts as the zero record and receives the matching row, if any. -/
def scanRow (rows : List SequenceStore) (t : String) : SequenceStore :=
  (rows.find? (fun x => x.TableName == t)).getD ⟨"", 0⟩

/-- Modelled from the spec: `scope.NewDB().Save(&r)` of the host ORM, "executing an
upsert-style save of a record", keyed by the primary key `TableName`: the rows carrying
the key are updated in place, and the record is inserted when there is none. -/
def saveRow (rows : List SequenceStore) (r : SequenceStore) : List SequenceStore :=
  if rows.any (fun x => x.TableName == r.TableName) then
    rows.map (fun x => if x.TableName == r.TableName then r else x)
  else rows ++ [r]

/-- Modelled from the spec: `scope.NewDB().CreateTable(&SequenceStore{})` of the host ORM,
"creating a table from a described schema".  An absent table is created empty; on a
table that is already there the statement fails and the table keeps its rows. -/
def createTable (table : Option (List SequenceStore)) : Option (List SequenceStore) :=
  match table with
  | none => some []
  | some rows => some rows

/-- Modelled from the spec: the scan of line 37 as the host ORM runs it against the
database.  On an absent table the query fails and the destination keeps the zero record. -/
def scanTable (table : Option (List SequenceStore)) (t : String) : SequenceStore :=
  match table with
  | none => ⟨"", 0⟩
  | some rows => scanRow rows t

/-- Modelled from the spec: the save of line 44 as the host ORM runs it against the
database.  On an absent table the statement fails and nothing is persisted. -/
def saveTable (table : Option (List SequenceStore)) (r : SequenceStore) :
    Option (List SequenceStore) :=
  match table with
  | none => none
  | some rows => some (saveRow rows r)

/-- The counter value persisted for table `t`: the value a scan reads, `0` without a row. -/
def currentValue (rows : List SequenceStore) (t : String) : Nat :=
  (scanRow rows t).Sequence

/-- The message passed to `scope.Log` (oracle.go, line 28). -/
def advisory : String :=
  "buildFakeSequenceGenerator: Do not use this feature in a production environment. You must create your own sequence!"

/-! ## The pseudo-sequence allocator -/

/-- The function `buildFakeSequenceGenerator` (oracle.go, lines 22-49). -/
def buildFakeSequenceGenerator (sequenceName : String) (scope : Scope) (s : State) :
    (Nat × Bool) × State :=
  if sequenceName != "AUTO_INCREMENT" then ((0, false), s)
  else
    let s1 : State := { s with logged := s.logged ++ [advisory] }
    let s2 : State :=
      if !s1.sequenceStoreExists then
        { s1 with
          table := createTable s1.table,
          issued := s1.issued ++ [Stmt.createTable],
          sequenceStoreExists := true }
      else s1
    let r0 : SequenceStore := scanTable s2.table scope.QuotedTableName
    let s3 : State := { s2 with issued := s2.issued ++ [Stmt.scan scope.QuotedTableName] }
    let r1 : SequenceStore :=
      if r0.TableName.length == 0 then ⟨scope.QuotedTableName, 0⟩ else r0
    let r2 : SequenceStore := { r1 with Sequence := f64AddOne r1.Sequence }
    let s4 : State :=
      { s3 with table := saveTable s3.table r2, issued := s3.issued ++ [Stmt.save r2] }
    ((r2.Sequence, true), s4)

/-- Sequential execution of allocation calls, each given by its sequence name and its
scope, in the order of the list; the results are returned in the same order. -/
def runCalls : List (String × Scope) → State → List (Nat × Bool) × State
  | [], s => ([], s)
  | c :: cs, s =>
    let out := buildFakeSequenceGenerator c.1 c.2 s
    let rest := runCalls cs out.2
    (out.1 :: rest.1, rest.2)

/-- A process restart: the package variable is back at its zero value, the database
keeps the counter table and its rows. -/
def restart (s : State) : State :=
  { s with sequenceStoreExists := false }

/-- A scope for the table identifier `t`, with no fields and no settings. -/
def scopeFor (t : String) : Scope :=
  ⟨"goracle", t, [], []⟩

/-! ## Two requests sharing the counter table

The body of `buildFakeSequenceGenerator` touches the database twice: the scan of line 37
and the save of line 44.  A request is cut at these two statements; what lies between
them is local to the request. -/

/-- Progress of one allocation request. -/
inductive Request where
  | start
  | scanned (r : SequenceStore)
  | returned (v : Nat) (ok : Bool)
  deriving DecidableEq, Repr

/-- One atomic step of a request: from `start` lines 24-37 (guard, log, lazy table
creation, scan), from `scanned r` lines 39-48 (default row, increment, save, return). -/
def Request.step (sequenceName : String) (scope : Scope) : Request → State → Request × State
  | Request.start, s =>
    if sequenceName != "AUTO_INCREMENT" then (Request.returned 0 false, s)
    else
      let s1 : State := { s with logged := s.logged ++ [advisory] }
      let s2 : State :=
        if !s1.sequenceStoreExists then
          { s1 with
            table := createTable s1.table,
            issued := s1.issued ++ [Stmt.createTable],
            sequenceStoreExists := true }
        else s1
      let r0 : SequenceStore := scanTable s2.table scope.QuotedTableName
      (Request.scanned r0, { s2 with issued := s2.issued ++ [Stmt.scan scope.QuotedTableName] })
  | Request.scanned r0, s =>
    let r1 : SequenceStore :=
      if r0.TableName.length == 0 then ⟨scope.QuotedTableName, 0⟩ else r0
    let r2 : SequenceStore := { r1 with Sequence := f64AddOne r1.Sequence }
    (Request.returned r2.Sequence true,
      { s with table := saveTable s.table r2, issued := s.issued ++ [Stmt.save r2] })
  | Request.returned v ok, s => (Request.returned v ok, s)

/-- Two requests for the same scope and a schedule: `false` lets the first request take
its next step, `true` the second. -/
def runSchedule (sequenceName : String) (scope : Scope) :
    List Bool → Request × Request × State → Request × Request × State
  | [], c => c
  | false :: sch, (a, b, s) =>
    let o := Request.step sequenceName scope a s
    runSchedule sequenceName scope sch (o.1, b, o.2)
  | true :: sch, (a, b, s) =>
    let o := Request.step sequenceName scope b s
    runSchedule sequenceName scope sch (a, o.1, o.2)

/-! ## The identity-insert hook -/

/-- Modelled from the spec: `scope.PrimaryFields()` of the host ORM, "enumerate
primary-key fields". -/
def Scope.PrimaryFields (scope : Scope) : List Field :=
  scope.fields.filter (fun f => f.IsPrimaryKey)

/-- Writes `v` into the first field called `name`. -/
def setField (name : String) (v : Nat) : List Field → List Field
  | [] => []
  | x :: xs =>
    if x.Name == name then { x with Value := v, IsBlank := decide (v = 0) } :: xs
    else x :: setField name v xs

/-- Modelled from the spec: `scope.SetColumn(name, value)` of the host ORM, "write the
resolved value into the entity's in-memory field"; a field is blank when it holds its
zero value. -/
def Scope.SetColumn (scope : Scope) (name : String) (v : Nat) : Scope :=
  { scope with fields := setField name v scope.fields }

/-- Modelled from the spec: `scope.InstanceSet(key, value)` of the host ORM, "a
per-operation key-value context". -/
def Scope.InstanceSet (scope : Scope) (key : String) (v : Bool) : Scope :=
  { scope with settings := (key, v) :: scope.settings }

/-- Modelled from the spec: `scope.InstanceGet(key)` of the host ORM, the reading side of
the per-operation key-value context. -/
def Scope.InstanceGet (scope : Scope) (key : String) : Option Bool :=
  scope.settings.lookup key

/-- The method `oracle.SelectFromDummyTable` (oracle.go, lines 184-186). -/
def SelectFromDummyTable : String := "FROM dual"

/-- The body of the loop of `setIdentityInsert` (oracle.go, lines 55-66) for one primary
field; `acc` is the scope and the state reached by the earlier iterations.
`rowScan issued stmt` is what `Raw(stmt).Row()` followed by `row.Scan(&nextVal)` delivers
after the statements `issued`: `some v` when a row is scanned, `none` when there is no row
or the scan fails, in which case `nextVal` keeps its value. -/
def setIdentityInsertField (rowScan : List Stmt → String → Option Nat) (field : Field)
    (acc : Scope × State) : Scope × State :=
  match field.TagSettings.lookup "AUTO_INCREMENT" with
  | some seq =>
    if field.IsBlank then
      let out := buildFakeSequenceGenerator seq acc.1 acc.2
      let res : Nat × State :=
        if !out.1.2 then
          let stmt := "SELECT " ++ seq ++ ".nextval " ++ SelectFromDummyTable
          ((rowScan out.2.issued stmt).getD out.1.1,
            { out.2 with issued := out.2.issued ++ [Stmt.raw stmt] })
        else (out.1.1, out.2)
      ((acc.1.SetColumn field.Name res.1).InstanceSet "oracle:sequence_insert_on" true, res.2)
    else acc
  | none => acc

/-- The loop of `setIdentityInsert` over a list of primary fields. -/
def identityLoop (rowScan : List Stmt → String → Option Nat) (fs : List Field)
    (acc : Scope × State) : Scope × State :=
  fs.foldl (fun a f => setIdentityInsertField rowScan f a) acc

/-- The callback `setIdentityInsert` (oracle.go, lines 51-69). -/
def setIdentityInsert (rowScan : List Stmt → String → Option Nat) (scope : Scope)
    (s : State) : Scope × State :=
  if scope.dialectName == "goracle" then identityLoop rowScan scope.PrimaryFields (scope, s)
  else (scope, s)

/-- A primary field the hook acts on: blank and carrying an `AUTO_INCREMENT` tag. -/
def Field.pending (f : Field) : Bool :=
  f.IsBlank && (f.TagSettings.lookup "AUTO_INCREMENT").isSome

/-! ## Type mapping -/

/-- The kinds of `reflect.Kind`. -/
inductive Kind where
  | Invalid | Bool | Int | Int8 | Int16 | Int32 | Int64
  | Uint | Uint8 | Uint16 | Uint32 | Uint64 | Uintptr
  | Float32 | Float64 | Complex64 | Complex128
  | Array | Chan | Func | Interface | Map | Ptr | Slice | String | Struct | UnsafePointer
  deriving DecidableEq, Repr

/-- What the dialect inspects of the `reflect.Value` of a field: its kind, whether its
type is `time.Time`, and whether its element type is `uint8`. -/
structure DataValue where
  kind : Kind
  isTime : Bool
  elemIsUint8 : Bool
  deriving DecidableEq, Repr

/-- The four results of `gorm.ParseFieldStructForDialect(field, d)`, which belongs to the
host ORM: the value of the field, the configured SQL type (empty when none is
configured), the size and the additional type text. -/
structure ParsedField where
  dataValue : DataValue
  sqlType : String
  size : Int
  additionalType : String
  deriving DecidableEq, Repr

/-- Modelled from the spec: `gorm.IsByteArrayOrSlice` of the host ORM, the "byte blob"
kind: an array or a slice whose elements are bytes. -/
def IsByteArrayOrSlice (v : DataValue) : Bool :=
  (v.kind == Kind.Array || v.kind == Kind.Slice) && v.elemIsUint8

/-- The white space of Go, `unicode.IsSpace`. -/
def isSpace (c : Char) : Bool :=
  let n := c.toNat
  (9 ≤ n && n ≤ 13) || n == 32 || n == 0x85 || n == 0xA0 || n == 0x1680 ||
  (0x2000 ≤ n && n ≤ 0x200A) || n == 0x2028 || n == 0x2029 || n == 0x202F ||
  n == 0x205F || n == 0x3000

/-- The function `strings.TrimSpace` of Go. -/
def TrimSpace (s : String) : String :=
  String.mk ((s.data.dropWhile isSpace).reverse.dropWhile isSpace).reverse

/-- The value of the variable `sqlType` of `oracle.DataTypeOf` when line 127 is reached
(oracle.go, lines 98-125): the configured type, or the type chosen by the kind switch,
or still the empty string. -/
def sqlTypeOf (p : ParsedField) : String :=
  if p.sqlType == "" then
    match p.dataValue.kind with
    | Kind.Bool => "CHAR(1)"
    | Kind.Int | Kind.Int8 | Kind.Int16 | Kind.Int32
    | Kind.Uint | Kind.Uint8 | Kind.Uint16 | Kind.Uint32 | Kind.Uintptr => "INTEGER"
    | Kind.Int64 | Kind.Uint64 => "NUMBER"
    | Kind.Float32 | Kind.Float64 => "FLOAT"
    | Kind.String =>
      if p.size > 0 && p.size < 4000 then "VARCHAR(" ++ toString p.size ++ ")" else "CLOB"
    | Kind.Struct => if p.dataValue.isTime then "DATE" else p.sqlType
    | _ => if IsByteArrayOrSlice p.dataValue then "BLOB" else p.sqlType
  else p.sqlType

/-- The method `oracle.DataTypeOf` (oracle.go, lines 97-135), applied to the results of
`gorm.ParseFieldStructForDialect`; `none` is the panic of line 128. -/
def DataTypeOf (p : ParsedField) : Option String :=
  if sqlTypeOf p == "" then none
  else if TrimSpace p.additionalType == "" then some (sqlTypeOf p)
  else some (sqlTypeOf p ++ " " ++ p.additionalType)

/-- The field kinds the type mapping recognizes, in the words of the specification: a
boolean, an integer of any width, a float, a string, a `time.Time` struct, or a byte
array or slice. -/
def recognized (v : DataValue) : Prop :=
  v.kind = Kind.Bool ∨
  (v.kind = Kind.Int ∨ v.kind = Kind.Int8 ∨ v.kind = Kind.Int16 ∨ v.kind = Kind.Int32 ∨
    v.kind = Kind.Int64 ∨ v.kind = Kind.Uint ∨ v.kind = Kind.Uint8 ∨ v.kind = Kind.Uint16 ∨
    v.kind = Kind.Uint32 ∨ v.kind = Kind.Uint64 ∨ v.kind = Kind.Uintptr) ∨
  (v.kind = Kind.Float32 ∨ v.kind = Kind.Float64) ∨
  v.kind = Kind.String ∨
  (v.kind = Kind.Struct ∧ v.isTime = true) ∨
  ((v.kind = Kind.Array ∨ v.kind = Kind.Slice) ∧ v.elemIsUint8 = true)

/-! ## Row limits -/

/-- The method `oracle.LimitWhereSQL` (oracle.go, lines 171-178).  The limit is `none`
for a nil interface and `some p` for a value that `fmt.Sprint` prints as `p`;
`parseInt p` is `some n` when `strconv.ParseInt(p, 0, 0)` returns `n` without an error. -/
def LimitWhereSQL (parseInt : String → Option Int) (limit : Option String) : String :=
  match limit with
  | none => ""
  | some p =>
    match parseInt p with
    | some parsedLimit =>
      if parsedLimit ≥ 0 then " AND (ROWNUM <= " ++ toString parsedLimit ++ ")" else ""
    | none => ""

/-- The method `oracle.LimitAndOffsetSQL` (oracle.go, lines 180-182); the limit and the
offset are given by their printed forms, `none` for nil. -/
def LimitAndOffsetSQL (_limit _offset : Option String) : String := ""

/-! ## Lemmas on the counter table -/

theorem length_eq_zero_iff (t : String) : t.length = 0 ↔ t = "" := by
  constructor
  · intro h
    cases t with
    | mk d =>
      have hd : d = [] := List.length_eq_zero.mp h
      rw [hd]
  · rintro rfl
    rfl

theorem scanRow_cases (rows : List SequenceStore) (t : String) :
    scanRow rows t = ⟨"", 0⟩ ∨ (scanRow rows t).TableName = t := by
  unfold scanRow
  cases h : rows.find? (fun x => x.TableName == t) with
  | none => left; rfl
  | some x =>
    right
    have := List.find?_some h
    simpa using this

/-- The record that lines 39-43 build from the scanned row, for a non-empty table
identifier: the key is the identifier and the counter is the persisted value. -/
theorem nextRow_eq (rows : List SequenceStore) (t : String) (ht : t ≠ "") :
    (if ((scanRow rows t).TableName.length == 0) = true then (⟨t, 0⟩ : SequenceStore)
      else scanRow rows t) = ⟨t, currentValue rows t⟩ := by
  unfold currentValue
  rcases scanRow_cases rows t with h | h
  · rw [h]; rfl
  · have hne : ¬ (((scanRow rows t).TableName.length == 0) = true) := by
      rw [beq_iff_eq, length_eq_zero_iff, h]; exact ht
    rw [if_neg hne]
    cases hr : scanRow rows t with
    | mk a b => rw [hr] at h; simp only at h; rw [h]

theorem find_update_self (rows : List SequenceStore) (r : SequenceStore)
    (h : rows.any (fun x => x.TableName == r.TableName) = true) :
    (rows.map (fun x => if x.TableName == r.TableName then r else x)).find?
      (fun x => x.TableName == r.TableName) = some r := by
  induction rows with
  | nil => simp at h
  | cons x xs ih =>
    rw [List.map_cons, List.find?_cons]
    by_cases hx : (x.TableName == r.TableName) = true
    · rw [if_pos hx]; simp
    · rw [if_neg hx]
      have hx2 : (x.TableName == r.TableName) = false := by simpa using hx
      rw [hx2]
      apply ih
      rw [List.any_cons, hx2] at h
      simpa using h

theorem scanRow_saveRow_self (rows : List SequenceStore) (r : SequenceStore) :
    scanRow (saveRow rows r) r.TableName = r := by
  unfold saveRow scanRow
  by_cases h : rows.any (fun x => x.TableName == r.TableName) = true
  · rw [if_pos h, find_update_self rows r h]; rfl
  · rw [if_neg h]
    have hn : rows.find? (fun x => x.TableName == r.TableName) = none := by
      rw [List.find?_eq_none]
      intro x hx hp
      exact h (List.any_eq_true.mpr ⟨x, hx, hp⟩)
    rw [List.find?_append, hn]
    simp

theorem find_update_ne (rows : List SequenceStore) (r : SequenceStore) (u : String)
    (hu : r.TableName ≠ u) :
    (rows.map (fun x => if x.TableName == r.TableName then r else x)).find?
      (fun x => x.TableName == u) = rows.find? (fun x => x.TableName == u) := by
  have hru : (r.TableName == u) = false := by simpa using hu
  induction rows with
  | nil => rfl
  | cons x xs ih =>
    rw [List.map_cons, List.find?_cons, List.find?_cons]
    by_cases hx : (x.TableName == r.TableName) = true
    · rw [if_pos hx]
      have hxu : (x.TableName == u) = false := by
        rw [beq_iff_eq] at hx; rw [hx]; exact hru
      rw [hru, hxu]; exact ih
    · rw [if_neg hx, ih]

theorem find_saveRow_ne (rows : List SequenceStore) (r : SequenceStore) (u : String)
    (hu : r.TableName ≠ u) :
    (saveRow rows r).find? (fun x => x.TableName == u) =
      rows.find? (fun x => x.TableName == u) := by
  have hru : (r.TableName == u) = false := by simpa using hu
  unfold saveRow
  split
  · exact find_update_ne rows r u hu
  · rw [List.find?_append, List.find?_cons, hru]
    simp

theorem scanRow_saveRow_ne (rows : List SequenceStore) (r : SequenceStore) (u : String)
    (hu : r.TableName ≠ u) : scanRow (saveRow rows r) u = scanRow rows u := by
  unfold scanRow
  rw [find_saveRow_ne rows r u hu]

theorem filter_update_ne (rows : List SequenceStore) (r : SequenceStore) (u : String)
    (hu : r.TableName ≠ u) :
    (rows.map (fun x => if x.TableName == r.TableName then r else x)).filter
      (fun x => x.TableName == u) = rows.filter (fun x => x.TableName == u) := by
  have hru : (r.TableName == u) = false := by simpa using hu
  induction rows with
  | nil => rfl
  | cons x xs ih =>
    rw [List.map_cons, List.filter_cons, List.filter_cons]
    by_cases hx : (x.TableName == r.TableName) = true
    · rw [if_pos hx]
      have hxu : (x.TableName == u) = false := by
        rw [beq_iff_eq] at hx; rw [hx]; exact hru
      rw [hru, hxu]
      simpa using ih
    · rw [if_neg hx, ih]

theorem filter_saveRow_ne (rows : List SequenceStore) (r : SequenceStore) (u : String)
    (hu : r.TableName ≠ u) :
    (saveRow rows r).filter (fun x => x.TableName == u) =
      rows.filter (fun x => x.TableName == u) := by
  have hru : (r.TableName == u) = false := by simpa using hu
  unfold saveRow
  split
  · exact filter_update_ne rows r u hu
  · rw [List.filter_append, List.filter_cons, hru]
    simp

theorem map_saveRow_of_mem (rows : List SequenceStore) (r : SequenceStore) :
    (rows.map (fun x => if x.TableName == r.TableName then r else x)).map
      (fun x => x.TableName) = rows.map (fun x => x.TableName) := by
  induction rows with
  | nil => rfl
  | cons x xs ih =>
    rw [List.map_cons, List.map_cons, List.map_cons, ih]
    by_cases hx : (x.TableName == r.TableName) = true
    · rw [if_pos hx]
      rw [beq_iff_eq] at hx
      rw [hx]
    · rw [if_neg hx]

theorem nodup_saveRow (rows : List SequenceStore) (r : SequenceStore)
    (h : (rows.map (fun x => x.TableName)).Nodup) :
    ((saveRow rows r).map (fun x => x.TableName)).Nodup := by
  unfold saveRow
  split
  · rw [map_saveRow_of_mem]; exact h
  · rename_i hany
    rw [List.map_append, List.nodup_append]
    refine ⟨h, by simp, ?_⟩
    intro a ha hb
    simp at hb
    subst hb
    apply hany
    rw [List.mem_map] at ha
    obtain ⟨x, hx, hxa⟩ := ha
    exact List.any_eq_true.mpr ⟨x, hx, by simpa using hxa⟩

/-! ## Lemmas on the float64 increment -/

theorem f64AddOne_exact (n : Nat) (h : n < 2 ^ 53) : f64AddOne n = n + 1 := by
  unfold f64AddOne
  rw [if_pos h]

theorem le_f64AddOne (n : Nat) : n ≤ f64AddOne n := by
  unfold f64AddOne
  split
  · omega
  · split
    · split <;> omega
    · omega

theorem one_le_f64AddOne (n : Nat) : 1 ≤ f64AddOne n := by
  unfold f64AddOne
  split
  · omega
  · split
    · split <;> omega
    · omega

/-! ## Lemmas on the table as the database holds it -/

theorem scanTable_eq (table : Option (List SequenceStore)) (t : String) :
    scanTable table t = scanRow (table.getD []) t := by
  cases table <;> rfl

theorem rows_createTable (table : Option (List SequenceStore)) :
    (createTable table).getD [] = table.getD [] := by
  cases table <;> rfl

theorem saveTable_createTable (table : Option (List SequenceStore)) (r : SequenceStore) :
    saveTable (createTable table) r = some (saveRow (table.getD []) r) := by
  cases table <;> rfl

theorem saveTable_of_isSome (table : Option (List SequenceStore)) (r : SequenceStore)
    (h : table.isSome = true) : saveTable table r = some (saveRow (table.getD []) r) := by
  cases table with
  | none => exact Bool.noConfusion h
  | some rows => rfl

/-- The rows after a save are the rows before it, or the rows before it with the record
saved into them. -/
theorem rows_saveTable (table : Option (List SequenceStore)) (r : SequenceStore) :
    (saveTable table r).getD [] = table.getD [] ∨
    (saveTable table r).getD [] = saveRow (table.getD []) r := by
  cases table with
  | none => left; rfl
  | some rows => right; rfl

/-! ## Lemmas on the allocator -/

/-- The record that lines 39-43 build from the scanned row, for a non-empty table
identifier. -/
theorem nextRow_table (table : Option (List SequenceStore)) (t : String) (ht : t ≠ "") :
    (if ((scanTable table t).TableName.length == 0) = true then (⟨t, 0⟩ : SequenceStore)
      else scanTable table t) = ⟨t, currentValue (table.getD []) t⟩ := by
  rw [scanTable_eq]
  exact nextRow_eq _ t ht

/-- The key of the record that lines 39-43 build is the table identifier of the scope. -/
theorem nextRow_key (table : Option (List SequenceStore)) (t : String) :
    (if ((scanTable table t).TableName.length == 0) = true then (⟨t, 0⟩ : SequenceStore)
      else scanTable table t).TableName = t := by
  rw [scanTable_eq]
  rcases scanRow_cases (table.getD []) t with h | h
  · rw [h]; rfl
  · split
    · rfl
    · exact h

/-- The complete effect of an allocation with the placeholder on a non-empty table
identifier. -/
theorem alloc_eq (scope : Scope) (s : State) (ht : scope.QuotedTableName ≠ "") :
    buildFakeSequenceGenerator "AUTO_INCREMENT" scope s =
      ((f64AddOne (currentValue s.rows scope.QuotedTableName), true),
        { sequenceStoreExists := true,
          table := saveTable
            (if s.sequenceStoreExists then s.table else createTable s.table)
            ⟨scope.QuotedTableName, f64AddOne (currentValue s.rows scope.QuotedTableName)⟩,
          issued := (if s.sequenceStoreExists then s.issued
              else s.issued ++ [Stmt.createTable]) ++
            [Stmt.scan scope.QuotedTableName,
              Stmt.save ⟨scope.QuotedTableName,
                f64AddOne (currentValue s.rows scope.QuotedTableName)⟩],
          logged := s.logged ++ [advisory] }) := by
  have hg : ("AUTO_INCREMENT" != "AUTO_INCREMENT") = false := by decide
  unfold buildFakeSequenceGenerator State.rows
  simp only [hg, Bool.false_eq_true, if_false]
  cases hf : s.sequenceStoreExists
  · simp only [Bool.not_false, if_true, nextRow_table _ scope.QuotedTableName ht,
      rows_createTable]
    simp
  · simp only [Bool.not_true, Bool.false_eq_true, if_false,
      nextRow_table _ scope.QuotedTableName ht]
    simp [hf]

theorem alloc_unsupported (sequenceName : String) (scope : Scope) (s : State)
    (h : sequenceName ≠ "AUTO_INCREMENT") :
    buildFakeSequenceGenerator sequenceName scope s = ((0, false), s) := by
  unfold buildFakeSequenceGenerator
  have hg : (sequenceName != "AUTO_INCREMENT") = true := by simpa using h
  rw [if_pos hg]

/-- A call with the placeholder always reports success and returns at least 1. -/
theorem alloc_ok (scope : Scope) (s : State) :
    (buildFakeSequenceGenerator "AUTO_INCREMENT" scope s).1.2 = true ∧
    1 ≤ (buildFakeSequenceGenerator "AUTO_INCREMENT" scope s).1.1 := by
  have hg : ("AUTO_INCREMENT" != "AUTO_INCREMENT") = false := by decide
  unfold buildFakeSequenceGenerator
  simp only [hg, Bool.false_eq_true, if_false]
  exact ⟨trivial, one_le_f64AddOne _⟩

/-- The table the scan of line 37 reads holds the rows the table held before the call. -/
theorem rows_ensured (s : State) :
    (if (!s.sequenceStoreExists) = true then
      ({ sequenceStoreExists := true, table := createTable s.table,
          issued := s.issued ++ [Stmt.createTable],
          logged := s.logged ++ [advisory] } : State)
      else { s with logged := s.logged ++ [advisory] }).table.getD [] = s.rows := by
  unfold State.rows
  split
  · exact rows_createTable s.table
  · rfl

/-- The rows after any call are the rows before, or the rows before with one record for
the table of the scope saved into them. -/
theorem alloc_rows (sequenceName : String) (scope : Scope) (s : State) :
    (buildFakeSequenceGenerator sequenceName scope s).2.rows = s.rows ∨
    ∃ r : SequenceStore, r.TableName = scope.QuotedTableName ∧
      (buildFakeSequenceGenerator sequenceName scope s).2.rows = saveRow s.rows r := by
  by_cases hg : (sequenceName != "AUTO_INCREMENT") = true
  · left
    unfold buildFakeSequenceGenerator
    rw [if_pos hg]
  · unfold buildFakeSequenceGenerator
    rw [if_neg hg]
    simp only []
    generalize hs2 : (if (!s.sequenceStoreExists) = true then
      ({ sequenceStoreExists := true, table := createTable s.table,
          issued := s.issued ++ [Stmt.createTable],
          logged := s.logged ++ [advisory] } : State)
      else { s with logged := s.logged ++ [advisory] }) = s2
    have hrows : s2.table.getD [] = s.rows := by rw [← hs2]; exact rows_ensured s
    have hkey := nextRow_key s2.table scope.QuotedTableName
    unfold State.rows at hrows ⊢
    simp only []
    generalize (if ((scanTable s2.table scope.QuotedTableName).TableName.length == 0) = true
        then (⟨scope.QuotedTableName, 0⟩ : SequenceStore)
        else scanTable s2.table scope.QuotedTableName) = r1 at hkey ⊢
    rcases rows_saveTable s2.table ⟨r1.TableName, f64AddOne r1.Sequence⟩ with h | h
    · left
      rw [h, hrows]
    · right
      exact ⟨⟨r1.TableName, f64AddOne r1.Sequence⟩, hkey, by rw [h, hrows]⟩

/-- The result of a call is determined by the sequence name and by what a scan of the
rows for the table of the scope reads. -/
theorem alloc_result_congr (sequenceName : String) (scope : Scope) (s s' : State)
    (h : scanRow s.rows scope.QuotedTableName = scanRow s'.rows scope.QuotedTableName) :
    (buildFakeSequenceGenerator sequenceName scope s).1 =
      (buildFakeSequenceGenerator sequenceName scope s').1 := by
  have h1 := rows_ensured s
  have h2 := rows_ensured s'
  unfold buildFakeSequenceGenerator
  split
  · rfl
  · simp only [scanTable_eq, h1, h2, h]

/-- A state in which allocations persist: the counter table exists, or the package
variable is still unset so that the next placeholder call creates it. -/
theorem alloc_table_of_ready (scope : Scope) (s : State)
    (ht : scope.QuotedTableName ≠ "")
    (hr : s.table.isSome = true ∨ s.sequenceStoreExists = false) :
    (buildFakeSequenceGenerator "AUTO_INCREMENT" scope s).2.table =
      some (saveRow s.rows
        ⟨scope.QuotedTableName, f64AddOne (currentValue s.rows scope.QuotedTableName)⟩) := by
  rw [alloc_eq scope s ht]
  simp only []
  cases hf : s.sequenceStoreExists
  · simp only [Bool.false_eq_true, if_false]
    exact saveTable_createTable s.table _
  · simp only [if_true]
    rcases hr with hr | hr
    · exact saveTable_of_isSome s.table _ hr
    · rw [hf] at hr; exact Bool.noConfusion hr

theorem alloc_current_of_ready (scope : Scope) (s : State)
    (ht : scope.QuotedTableName ≠ "")
    (hr : s.table.isSome = true ∨ s.sequenceStoreExists = false) :
    currentValue (buildFakeSequenceGenerator "AUTO_INCREMENT" scope s).2.rows
        scope.QuotedTableName =
      f64AddOne (currentValue s.rows scope.QuotedTableName) := by
  unfold State.rows
  rw [alloc_table_of_ready scope s ht hr]
  exact congrArg SequenceStore.Sequence (scanRow_saveRow_self s.rows ⟨scope.QuotedTableName, _⟩)

theorem ready_alloc (sequenceName : String) (scope : Scope) (s : State)
    (hr : s.table.isSome = true ∨ s.sequenceStoreExists = false) :
    (buildFakeSequenceGenerator sequenceName scope s).2.table.isSome = true ∨
      (buildFakeSequenceGenerator sequenceName scope s).2.sequenceStoreExists = false := by
  by_cases hg : (sequenceName != "AUTO_INCREMENT") = true
  · unfold buildFakeSequenceGenerator
    rw [if_pos hg]
    exact hr
  · left
    unfold buildFakeSequenceGenerator
    rw [if_neg hg]
    simp only []
    cases hf : s.sequenceStoreExists
    · simp only [Bool.not_false, if_true]
      cases s.table <;> rfl
    · simp only [Bool.not_true, Bool.false_eq_true, if_false]
      rcases hr with hr | hr
      · cases ht : s.table with
        | none => rw [ht] at hr; exact Bool.noConfusion hr
        | some rows => rfl
      · rw [hf] at hr; exact Bool.noConfusion hr
theorem runCalls_append (cs ds : List (String × Scope)) (s : State) :
    runCalls (cs ++ ds) s =
      ((runCalls cs s).1 ++ (runCalls ds (runCalls cs s).2).1,
        (runCalls ds (runCalls cs s).2).2) := by
  induction cs generalizing s with
  | nil => rfl
  | cons c cs ih =>
    rw [List.cons_append]
    simp only [runCalls]
    rw [ih]
    rfl

/-- Sequential placeholder calls for one table count upwards from the persisted value as
long as the counter stays within the exact range of float64, when the counter table
exists or is still to be created by the first of them. -/
theorem runCalls_replicate (scope : Scope) (ht : scope.QuotedTableName ≠ "") (k : Nat) :
    ∀ s : State, (s.table.isSome = true ∨ s.sequenceStoreExists = false) →
      currentValue s.rows scope.QuotedTableName + k ≤ 2 ^ 53 →
      (runCalls (List.replicate k ("AUTO_INCREMENT", scope)) s).1 =
        (List.range' (currentValue s.rows scope.QuotedTableName + 1) k).map
          (fun v => (v, true)) ∧
      currentValue (runCalls (List.replicate k ("AUTO_INCREMENT", scope)) s).2.rows
        scope.QuotedTableName = currentValue s.rows scope.QuotedTableName + k ∧
      ((runCalls (List.replicate k ("AUTO_INCREMENT", scope)) s).2.table.isSome = true ∨
        (runCalls (List.replicate k ("AUTO_INCREMENT", scope)) s).2.sequenceStoreExists =
          false) := by
  induction k with
  | zero => intro s hr _; exact ⟨rfl, rfl, hr⟩
  | succ k ih =>
    intro s hr hs
    have hlt : currentValue s.rows scope.QuotedTableName < 2 ^ 53 := by omega
    have hstep := alloc_eq scope s ht
    rw [f64AddOne_exact _ hlt] at hstep
    have hcur := alloc_current_of_ready scope s ht hr
    rw [f64AddOne_exact _ hlt] at hcur
    have hih := ih (buildFakeSequenceGenerator "AUTO_INCREMENT" scope s).2
      (ready_alloc "AUTO_INCREMENT" scope s hr) (by rw [hcur]; omega)
    rw [hcur] at hih
    simp only [List.replicate_succ, runCalls, List.range'_succ, List.map_cons]
    refine ⟨?_, ?_, hih.2.2⟩
    · rw [hih.1, hstep]
    · rw [hih.2.1]; omega

/-- Once the package variable is set, a call issues no `CreateTable` and leaves it set. -/
theorem creations_alloc_true (sequenceName : String) (scope : Scope) (s : State)
    (h : s.sequenceStoreExists = true) :
    (buildFakeSequenceGenerator sequenceName scope s).2.sequenceStoreExists = true ∧
    (buildFakeSequenceGenerator sequenceName scope s).2.issued.count Stmt.createTable =
      s.issued.count Stmt.createTable := by
  unfold buildFakeSequenceGenerator
  split
  · exact ⟨h, rfl⟩
  · simp [h, List.count_append, List.count_cons]

theorem creations_alloc_false (scope : Scope) (s : State)
    (h : s.sequenceStoreExists = false) :
    (buildFakeSequenceGenerator "AUTO_INCREMENT" scope s).2.sequenceStoreExists = true ∧
    (buildFakeSequenceGenerator "AUTO_INCREMENT" scope s).2.issued.count Stmt.createTable =
      s.issued.count Stmt.createTable + 1 := by
  have hg : ("AUTO_INCREMENT" != "AUTO_INCREMENT") = false := by decide
  unfold buildFakeSequenceGenerator
  simp [hg, h, List.count_append, List.count_cons]

theorem creations_runCalls_true (cs : List (String × Scope)) :
    ∀ s : State, s.sequenceStoreExists = true →
      (runCalls cs s).2.sequenceStoreExists = true ∧
      (runCalls cs s).2.issued.count Stmt.createTable = s.issued.count Stmt.createTable := by
  induction cs with
  | nil => intro s h; exact ⟨h, rfl⟩
  | cons c cs ih =>
    intro s h
    have h1 := creations_alloc_true c.1 c.2 s h
    have h2 := ih _ h1.1
    simp only [runCalls]
    exact ⟨h2.1, h2.2.trans h1.2⟩

theorem runCalls_unsupported (cs : List (String × Scope))
    (h : ∀ c ∈ cs, c.1 ≠ "AUTO_INCREMENT") (s : State) : (runCalls cs s).2 = s := by
  induction cs with
  | nil => rfl
  | cons c cs ih =>
    simp only [runCalls]
    rw [alloc_unsupported c.1 c.2 s (h c (List.mem_cons_self _ _))]
    exact ih (fun d hd => h d (List.mem_cons_of_mem _ hd))

theorem currentValue_of_no_row (rows : List SequenceStore) (t : String)
    (h : ∀ r ∈ rows, r.TableName ≠ t) : currentValue rows t = 0 := by
  unfold currentValue scanRow
  have hn : rows.find? (fun x => x.TableName == t) = none := by
    rw [List.find?_eq_none]
    intro x hx hp
    exact h x hx (by simpa using hp)
  rw [hn]
  rfl

theorem nodup_alloc (sequenceName : String) (scope : Scope) (s : State)
    (h : (s.rows.map (fun x => x.TableName)).Nodup) :
    ((buildFakeSequenceGenerator sequenceName scope s).2.rows.map
      (fun x => x.TableName)).Nodup := by
  rcases alloc_rows sequenceName scope s with h1 | ⟨r, _, h1⟩
  · rw [h1]; exact h
  · rw [h1]; exact nodup_saveRow s.rows r h

theorem nodup_runCalls (cs : List (String × Scope)) :
    ∀ s : State, (s.rows.map (fun x => x.TableName)).Nodup →
      ((runCalls cs s).2.rows.map (fun x => x.TableName)).Nodup := by
  induction cs with
  | nil => intro s h; exact h
  | cons c cs ih =>
    intro s h
    simp only [runCalls]
    exact ih _ (nodup_alloc c.1 c.2 s h)

theorem scanRow_alloc_ne (sequenceName : String) (scope : Scope) (s : State) (u : String)
    (hu : scope.QuotedTableName ≠ u) :
    scanRow (buildFakeSequenceGenerator sequenceName scope s).2.rows u = scanRow s.rows u := by
  rcases alloc_rows sequenceName scope s with h1 | ⟨r, hr, h1⟩
  · rw [h1]
  · rw [h1]
    exact scanRow_saveRow_ne s.rows r u (by rw [hr]; exact hu)

theorem scanRow_runCalls_ne (cs : List (String × Scope)) (u : String)
    (h : ∀ c ∈ cs, c.2.QuotedTableName ≠ u) :
    ∀ s : State, scanRow (runCalls cs s).2.rows u = scanRow s.rows u := by
  induction cs with
  | nil => intro s; rfl
  | cons c cs ih =>
    intro s
    simp only [runCalls]
    rw [ih (fun d hd => h d (List.mem_cons_of_mem _ hd))]
    exact scanRow_alloc_ne c.1 c.2 s u (h c (List.mem_cons_self _ _))

/-- From a table without a row for a non-empty identifier, the call number `2^53 + 1`
returns `2^53`, the value the call number `2^53` returned; and so does a call after a
restart that follows `2^53` calls. -/
theorem runCalls_stall (scope : Scope) (ht : scope.QuotedTableName ≠ "") (s : State)
    (hr : s.table.isSome = true ∨ s.sequenceStoreExists = false)
    (hrow : ∀ r ∈ s.rows, r.TableName ≠ scope.QuotedTableName) (k : Nat) (hk : k = 2 ^ 53) :
    (runCalls (List.replicate k ("AUTO_INCREMENT", scope) ++ [("AUTO_INCREMENT", scope)]) s).1 =
      (List.range' 1 k).map (fun v => (v, true)) ++ [(k, true)] ∧
    (buildFakeSequenceGenerator "AUTO_INCREMENT" scope
      (restart (runCalls (List.replicate k ("AUTO_INCREMENT", scope)) s).2)).1 = (k, true) := by
  have h0 := currentValue_of_no_row s.rows _ hrow
  have h := runCalls_replicate scope ht k s hr (by rw [h0, hk]; omega)
  rw [h0, Nat.zero_add, Nat.zero_add] at h
  have hf : f64AddOne k = k := by
    rw [hk]
    decide
  refine ⟨?_, ?_⟩
  · rw [runCalls_append, h.1]
    simp only [runCalls]
    rw [alloc_eq scope _ ht, h.2.1, hf]
  · rw [alloc_eq scope _ ht]
    have hrs : (restart (runCalls (List.replicate k ("AUTO_INCREMENT", scope)) s).2).rows =
        (runCalls (List.replicate k ("AUTO_INCREMENT", scope)) s).2.rows := rfl
    simp only [hrs, h.2.1, hf]

/-- A call never lowers the persisted value of a non-empty table identifier. -/
theorem alloc_current_mono (sequenceName : String) (scope : Scope) (s : State) (t : String)
    (ht : t ≠ "") :
    currentValue s.rows t ≤
      currentValue (buildFakeSequenceGenerator sequenceName scope s).2.rows t := by
  by_cases hst : scope.QuotedTableName = t
  · by_cases hg : sequenceName = "AUTO_INCREMENT"
    · subst hg
      subst hst
      by_cases hr : s.table.isSome = true ∨ s.sequenceStoreExists = false
      · rw [alloc_current_of_ready scope s ht hr]
        exact le_f64AddOne _
      · have hnone : s.table = none := by
          cases h : s.table with
          | none => rfl
          | some rows => exact absurd (Or.inl (by rw [h]; rfl)) hr
        have h0 : s.rows = [] := by unfold State.rows; rw [hnone]; rfl
        rw [h0]
        exact Nat.zero_le _
    · rw [alloc_unsupported sequenceName scope s hg]
  · unfold currentValue
    rw [scanRow_alloc_ne sequenceName scope s t hst]

/-- The value a call returns for a non-empty table identifier is at most the value
persisted for it after the call, when the call persists. -/
theorem alloc_value_le (sequenceName : String) (scope : Scope) (s : State)
    (ht : scope.QuotedTableName ≠ "")
    (hr : s.table.isSome = true ∨ s.sequenceStoreExists = false) :
    (buildFakeSequenceGenerator sequenceName scope s).1.1 ≤
      currentValue (buildFakeSequenceGenerator sequenceName scope s).2.rows
        scope.QuotedTableName := by
  by_cases hg : sequenceName = "AUTO_INCREMENT"
  · subst hg
    rw [alloc_current_of_ready scope s ht hr, alloc_eq scope s ht]
  · rw [alloc_unsupported sequenceName scope s hg]
    exact Nat.zero_le _

theorem runCalls_current_mono (cs : List (String × Scope)) (t : String) (ht : t ≠ "") :
    ∀ s : State, currentValue s.rows t ≤ currentValue (runCalls cs s).2.rows t := by
  induction cs with
  | nil => intro s; exact Nat.le_refl _
  | cons c cs ih =>
    intro s
    simp only [runCalls]
    exact Nat.le_trans (alloc_current_mono c.1 c.2 s t ht) (ih _)

/-- Every value returned for a non-empty table identifier by a sequence of calls is at
most the value persisted for it at the end, when the calls persist. -/
theorem runCalls_values_le (cs : List (String × Scope)) (t : String) (ht : t ≠ "") :
    ∀ s : State, (s.table.isSome = true ∨ s.sequenceStoreExists = false) →
      ∀ p ∈ List.zip cs (runCalls cs s).1, p.1.2.QuotedTableName = t →
        p.2.1 ≤ currentValue (runCalls cs s).2.rows t := by
  induction cs with
  | nil => intro s _ p hp; simp [runCalls] at hp
  | cons c cs ih =>
    intro s hr p hp hpt
    simp only [runCalls, List.zip_cons_cons, List.mem_cons] at hp
    simp only [runCalls]
    rcases hp with hp | hp
    · subst hp
      simp only at hpt
      subst hpt
      exact Nat.le_trans (alloc_value_le c.1 c.2 s ht hr)
        (runCalls_current_mono cs _ ht _)
    · exact ih _ (ready_alloc c.1 c.2 s hr) p hp hpt

theorem alloc_scope_congr (sequenceName : String) (scope scope' : Scope) (s : State)
    (h : scope.QuotedTableName = scope'.QuotedTableName) :
    buildFakeSequenceGenerator sequenceName scope s =
      buildFakeSequenceGenerator sequenceName scope' s := by
  unfold buildFakeSequenceGenerator
  rw [h]

/-! ## The allocator: claims C1, C2, C3 and C8 -/

/-- C1 (amended): for a non-empty table identifier whose persisted value `n` is below
`2^53`, a call with the placeholder returns `(n + 1, true)`, and it leaves the persisted
value at `n + 1` when the counter table exists or `sequenceStoreExists` is still unset.
The result never depends on `sequenceStoreExists`, and the rows written do not depend on
it when the counter table exists.  Hence, when the counter table exists or
`sequenceStoreExists` is unset, `k` sequential calls for a non-empty identifier without a
row return `1, 2, ..., k` for `k` up to `2^53`, and a call after a restart continues with
`k + 1` for `k` below `2^53`. -/
theorem C1_allocation_counts_up (scope : Scope) (s : State) (k : Nat) :
    (scope.QuotedTableName ≠ "" → currentValue s.rows scope.QuotedTableName < 2 ^ 53 →
      (buildFakeSequenceGenerator "AUTO_INCREMENT" scope s).1 =
        (currentValue s.rows scope.QuotedTableName + 1, true)) ∧
    (scope.QuotedTableName ≠ "" → currentValue s.rows scope.QuotedTableName < 2 ^ 53 →
      (s.table.isSome = true ∨ s.sequenceStoreExists = false) →
      currentValue (buildFakeSequenceGenerator "AUTO_INCREMENT" scope s).2.rows
        scope.QuotedTableName = currentValue s.rows scope.QuotedTableName + 1) ∧
    (∀ b : Bool,
      (buildFakeSequenceGenerator "AUTO_INCREMENT" scope { s with sequenceStoreExists := b }).1 =
        (buildFakeSequenceGenerator "AUTO_INCREMENT" scope s).1) ∧
    (s.table.isSome = true → ∀ b : Bool,
      (buildFakeSequenceGenerator "AUTO_INCREMENT" scope
          { s with sequenceStoreExists := b }).2.table =
        (buildFakeSequenceGenerator "AUTO_INCREMENT" scope s).2.table) ∧
    (scope.QuotedTableName ≠ "" →
      (s.table.isSome = true ∨ s.sequenceStoreExists = false) →
      (∀ r ∈ s.rows, r.TableName ≠ scope.QuotedTableName) → k ≤ 2 ^ 53 →
      (runCalls (List.replicate k ("AUTO_INCREMENT", scope)) s).1 =
        (List.range' 1 k).map (fun v => (v, true))) ∧
    (scope.QuotedTableName ≠ "" →
      (s.table.isSome = true ∨ s.sequenceStoreExists = false) →
      (∀ r ∈ s.rows, r.TableName ≠ scope.QuotedTableName) → k < 2 ^ 53 →
      (buildFakeSequenceGenerator "AUTO_INCREMENT" scope
        (restart (runCalls (List.replicate k ("AUTO_INCREMENT", scope)) s).2)).1 =
        (k + 1, true)) := by
  refine ⟨?_, ?_, ?_, ?_, ?_, ?_⟩
  · intro ht hn
    rw [alloc_eq scope s ht, f64AddOne_exact _ hn]
  · intro ht hn hr
    rw [alloc_current_of_ready scope s ht hr, f64AddOne_exact _ hn]
  · intro b
    exact alloc_result_congr "AUTO_INCREMENT" scope _ _ rfl
  · intro hsome b
    have hg : ("AUTO_INCREMENT" != "AUTO_INCREMENT") = false := by decide
    cases htab : s.table with
    | none => rw [htab] at hsome; exact Bool.noConfusion hsome
    | some rows =>
      unfold buildFakeSequenceGenerator
      simp only [hg, Bool.false_eq_true, if_false, htab]
      cases b <;> cases s.sequenceStoreExists <;> rfl
  · intro ht hr hrow hk
    have h0 := currentValue_of_no_row s.rows _ hrow
    have h1 := (runCalls_replicate scope ht k s hr (by omega)).1
    rw [h0] at h1
    exact h1
  · intro ht hr hrow hk
    have h0 := currentValue_of_no_row s.rows _ hrow
    have h1 := (runCalls_replicate scope ht k s hr (by omega)).2.1
    rw [h0, Nat.zero_add] at h1
    rw [alloc_eq scope _ ht]
    have hrs : (restart (runCalls (List.replicate k ("AUTO_INCREMENT", scope)) s).2).rows =
        (runCalls (List.replicate k ("AUTO_INCREMENT", scope)) s).2.rows := rfl
    simp only [hrs, h1]
    rw [f64AddOne_exact k hk]

/-- Instance of C1 for the table ORDERS: one call from the persisted value 41, and three
calls followed by a restart and a fourth call in a database without the counter table. -/
theorem C1_allocation_counts_up_witness :
    (buildFakeSequenceGenerator "AUTO_INCREMENT" (scopeFor "ORDERS")
        ⟨false, some [⟨"ORDERS", 41⟩], [], []⟩).1 = (42, true) ∧
    (runCalls (List.replicate 3 ("AUTO_INCREMENT", scopeFor "ORDERS")) ⟨false, none, [], []⟩).1 =
      [(1, true), (2, true), (3, true)] ∧
    (buildFakeSequenceGenerator "AUTO_INCREMENT" (scopeFor "ORDERS")
      (restart (runCalls (List.replicate 3 ("AUTO_INCREMENT", scopeFor "ORDERS"))
        ⟨false, none, [], []⟩).2)).1 = (4, true) :=
  ⟨(C1_allocation_counts_up (scopeFor "ORDERS") ⟨false, some [⟨"ORDERS", 41⟩], [], []⟩ 3).1
      (by decide) (by decide),
    (C1_allocation_counts_up (scopeFor "ORDERS") ⟨false, none, [], []⟩ 3).2.2.2.2.1
      (by decide) (by decide) (by decide) (by decide),
    (C1_allocation_counts_up (scopeFor "ORDERS") ⟨false, none, [], []⟩ 3).2.2.2.2.2
      (by decide) (by decide) (by decide) (by decide)⟩

/-- C1 fails as stated, in each of its parts.
Persisted value `2^53`: the float64 sum rounds back, the call returns `2^53` and leaves
the row at `2^53`; of `2^53 + 1` sequential calls the last returns `2^53` like the one
before it, and so does a call after `2^53` calls and a restart.
Empty table identifier: the saved row is taken for a missing one, a call on the persisted
value `1` returns `1` and leaves the row at `1`; two sequential calls return `1, 1`, and
a call after one call and a restart returns `1`.
Counter table absent while `sequenceStoreExists` is set: the call returns `1` and
persists nothing, whereas with the variable unset it persists the row; two sequential
calls return `1, 1`, and a call after one call and a restart returns `1`. -/
theorem C1_counterexample :
    ((buildFakeSequenceGenerator "AUTO_INCREMENT" (scopeFor "ORDERS")
          ⟨true, some [⟨"ORDERS", 9007199254740992⟩], [], []⟩).1 = (9007199254740992, true) ∧
      currentValue (buildFakeSequenceGenerator "AUTO_INCREMENT" (scopeFor "ORDERS")
          ⟨true, some [⟨"ORDERS", 9007199254740992⟩], [], []⟩).2.rows "ORDERS" =
        9007199254740992 ∧
      (runCalls (List.replicate 9007199254740992 ("AUTO_INCREMENT", scopeFor "ORDERS") ++
          [("AUTO_INCREMENT", scopeFor "ORDERS")]) ⟨false, none, [], []⟩).1 =
        (List.range' 1 9007199254740992).map (fun v => (v, true)) ++
          [(9007199254740992, true)] ∧
      (buildFakeSequenceGenerator "AUTO_INCREMENT" (scopeFor "ORDERS")
        (restart (runCalls (List.replicate 9007199254740992
          ("AUTO_INCREMENT", scopeFor "ORDERS")) ⟨false, none, [], []⟩).2)).1 =
        (9007199254740992, true)) ∧
    ((buildFakeSequenceGenerator "AUTO_INCREMENT" (scopeFor "")
          ⟨true, some [⟨"", 1⟩], [], []⟩).1 = (1, true) ∧
      currentValue (buildFakeSequenceGenerator "AUTO_INCREMENT" (scopeFor "")
          ⟨true, some [⟨"", 1⟩], [], []⟩).2.rows "" = 1 ∧
      (runCalls [("AUTO_INCREMENT", scopeFor ""), ("AUTO_INCREMENT", scopeFor "")]
          ⟨false, none, [], []⟩).1 = [(1, true), (1, true)] ∧
      (buildFakeSequenceGenerator "AUTO_INCREMENT" (scopeFor "")
        (restart (runCalls [("AUTO_INCREMENT", scopeFor "")] ⟨false, none, [], []⟩).2)).1 =
        (1, true)) ∧
    ((buildFakeSequenceGenerator "AUTO_INCREMENT" (scopeFor "ORDERS")
          ⟨true, none, [], []⟩).1 = (1, true) ∧
      (buildFakeSequenceGenerator "AUTO_INCREMENT" (scopeFor "ORDERS")
          ⟨true, none, [], []⟩).2.table = none ∧
      (buildFakeSequenceGenerator "AUTO_INCREMENT" (scopeFor "ORDERS")
          ⟨false, none, [], []⟩).2.table = some [⟨"ORDERS", 1⟩] ∧
      (runCalls [("AUTO_INCREMENT", scopeFor "ORDERS"), ("AUTO_INCREMENT", scopeFor "ORDERS")]
          ⟨true, none, [], []⟩).1 = [(1, true), (1, true)] ∧
      (buildFakeSequenceGenerator "AUTO_INCREMENT" (scopeFor "ORDERS")
        (restart (runCalls [("AUTO_INCREMENT", scopeFor "ORDERS")] ⟨true, none, [], []⟩).2)).1 =
        (1, true)) :=
  ⟨⟨by decide, by decide,
      (runCalls_stall (scopeFor "ORDERS") (by decide) ⟨false, none, [], []⟩ (Or.inr rfl)
        (fun _ h => absurd h (List.not_mem_nil _)) 9007199254740992 (by decide)).1,
      (runCalls_stall (scopeFor "ORDERS") (by decide) ⟨false, none, [], []⟩ (Or.inr rfl)
        (fun _ h => absurd h (List.not_mem_nil _)) 9007199254740992 (by decide)).2⟩,
    by decide, by decide⟩

/-- C2: for every sequence name other than the exact string "AUTO_INCREMENT" the call
returns `(0, false)` and the state after it is the state before it: the rows, the
package variable, the statements issued (no table creation among them) and the log. -/
theorem C2_unsupported_marker_no_effect (sequenceName : String) (scope : Scope) (s : State)
    (h : sequenceName ≠ "AUTO_INCREMENT") :
    buildFakeSequenceGenerator sequenceName scope s = ((0, false), s) :=
  alloc_unsupported sequenceName scope s h

/-- Instance of C2 for the sequence name ORDERS_SEQ. -/
theorem C2_unsupported_marker_no_effect_witness :
    buildFakeSequenceGenerator "ORDERS_SEQ" (scopeFor "ORDERS")
      ⟨false, some [⟨"ORDERS", 7⟩], [], []⟩ = ((0, false), ⟨false, some [⟨"ORDERS", 7⟩], [], []⟩) :=
  C2_unsupported_marker_no_effect "ORDERS_SEQ" (scopeFor "ORDERS")
    ⟨false, some [⟨"ORDERS", 7⟩], [], []⟩ (by decide)

/-- C3: for two distinct table identifiers T and U an allocation for T leaves the rows
of U as they are; the result of a later call for U is the same whether or not calls for
other tables ran in between; and a table with at most one row per identifier has at most
one row per identifier after any sequence of calls. -/
theorem C3_tables_independent (scopeT scopeU : Scope) (sequenceName : String) (s : State)
    (cs : List (String × Scope))
    (hTU : scopeT.QuotedTableName ≠ scopeU.QuotedTableName) :
    (buildFakeSequenceGenerator "AUTO_INCREMENT" scopeT s).2.rows.filter
        (fun x => x.TableName == scopeU.QuotedTableName) =
      s.rows.filter (fun x => x.TableName == scopeU.QuotedTableName) ∧
    ((∀ c ∈ cs, c.2.QuotedTableName ≠ scopeU.QuotedTableName) →
      (buildFakeSequenceGenerator sequenceName scopeU (runCalls cs s).2).1 =
        (buildFakeSequenceGenerator sequenceName scopeU s).1) ∧
    ((s.rows.map (fun x => x.TableName)).Nodup →
      ((runCalls cs s).2.rows.map (fun x => x.TableName)).Nodup) := by
  refine ⟨?_, ?_, nodup_runCalls cs s⟩
  · rcases alloc_rows "AUTO_INCREMENT" scopeT s with h1 | ⟨r, hr, h1⟩
    · rw [h1]
    · rw [h1]
      exact filter_saveRow_ne s.rows r _ (by rw [hr]; exact hTU)
  · intro hcs
    exact alloc_result_congr sequenceName scopeU _ _
      (scanRow_runCalls_ne cs _ hcs s)

/-- Instance of C3 for the tables ORDERS and USERS. -/
theorem C3_tables_independent_witness :
    (buildFakeSequenceGenerator "AUTO_INCREMENT" (scopeFor "ORDERS")
        ⟨false, some [⟨"USERS", 5⟩, ⟨"ORDERS", 2⟩], [], []⟩).2.rows.filter
        (fun x => x.TableName == "USERS") = [⟨"USERS", 5⟩] ∧
    (buildFakeSequenceGenerator "AUTO_INCREMENT" (scopeFor "USERS")
        (runCalls [("AUTO_INCREMENT", scopeFor "ORDERS"), ("AUTO_INCREMENT", scopeFor "ORDERS")]
          ⟨false, some [⟨"USERS", 5⟩, ⟨"ORDERS", 2⟩], [], []⟩).2).1 = (6, true) ∧
    ((runCalls [("AUTO_INCREMENT", scopeFor "ORDERS"), ("AUTO_INCREMENT", scopeFor "ORDERS")]
        ⟨false, some [⟨"USERS", 5⟩, ⟨"ORDERS", 2⟩], [], []⟩).2.rows.map
      (fun x => x.TableName)).Nodup :=
  ⟨(C3_tables_independent (scopeFor "ORDERS") (scopeFor "USERS") "AUTO_INCREMENT"
      ⟨false, some [⟨"USERS", 5⟩, ⟨"ORDERS", 2⟩], [], []⟩
      [("AUTO_INCREMENT", scopeFor "ORDERS"), ("AUTO_INCREMENT", scopeFor "ORDERS")]
      (by decide)).1,
    ((C3_tables_independent (scopeFor "ORDERS") (scopeFor "USERS") "AUTO_INCREMENT"
      ⟨false, some [⟨"USERS", 5⟩, ⟨"ORDERS", 2⟩], [], []⟩
      [("AUTO_INCREMENT", scopeFor "ORDERS"), ("AUTO_INCREMENT", scopeFor "ORDERS")]
      (by decide)).2.1 (by decide)).trans (by decide),
    (C3_tables_independent (scopeFor "ORDERS") (scopeFor "USERS") "AUTO_INCREMENT"
      ⟨false, some [⟨"USERS", 5⟩, ⟨"ORDERS", 2⟩], [], []⟩
      [("AUTO_INCREMENT", scopeFor "ORDERS"), ("AUTO_INCREMENT", scopeFor "ORDERS")]
      (by decide)).2.2 (by decide)⟩

/-- C8: in a process that starts with `sequenceStoreExists` false, the calls before the
first one with the placeholder issue no `CreateTable` and leave the variable false; the
first call with the placeholder issues exactly one `CreateTable` and sets the variable;
all calls after it, whatever their marker, issue no further `CreateTable` and leave the
variable set. -/
theorem C8_table_created_once (pre post : List (String × Scope)) (scope : Scope) (s : State)
    (h0 : s.sequenceStoreExists = false)
    (hpre : ∀ c ∈ pre, c.1 ≠ "AUTO_INCREMENT") :
    ((runCalls pre s).2.issued.count Stmt.createTable = s.issued.count Stmt.createTable ∧
      (runCalls pre s).2.sequenceStoreExists = false) ∧
    ((runCalls (pre ++ [("AUTO_INCREMENT", scope)]) s).2.issued.count Stmt.createTable =
        s.issued.count Stmt.createTable + 1 ∧
      (runCalls (pre ++ [("AUTO_INCREMENT", scope)]) s).2.sequenceStoreExists = true) ∧
    ((runCalls (pre ++ ("AUTO_INCREMENT", scope) :: post) s).2.issued.count Stmt.createTable =
        s.issued.count Stmt.createTable + 1 ∧
      (runCalls (pre ++ ("AUTO_INCREMENT", scope) :: post) s).2.sequenceStoreExists = true) := by
  have hp := runCalls_unsupported pre hpre s
  have h1 := creations_alloc_false scope s h0
  refine ⟨?_, ?_, ?_⟩
  · rw [hp]; exact ⟨rfl, h0⟩
  · rw [runCalls_append, hp]
    simp only [runCalls]
    exact ⟨h1.2, h1.1⟩
  · rw [runCalls_append, hp]
    simp only [runCalls]
    have h2 := creations_runCalls_true post _ h1.1
    exact ⟨h2.2.trans h1.2, h2.1⟩

/-- Instance of C8: one call naming a sequence, then three calls with the placeholder. -/
theorem C8_table_created_once_witness :
    (runCalls [("ORDERS_SEQ", scopeFor "ORDERS"), ("AUTO_INCREMENT", scopeFor "ORDERS"),
        ("AUTO_INCREMENT", scopeFor "USERS"), ("AUTO_INCREMENT", scopeFor "ORDERS")]
      ⟨false, some [], [], []⟩).2.issued.count Stmt.createTable = 1 :=
  (C8_table_created_once [("ORDERS_SEQ", scopeFor "ORDERS")]
    [("AUTO_INCREMENT", scopeFor "USERS"), ("AUTO_INCREMENT", scopeFor "ORDERS")]
    (scopeFor "ORDERS") ⟨false, some [], [], []⟩ rfl (by decide)).2.2.1

/-! ## Two concurrent requests: claim C9 -/

theorem update_idem (rows : List SequenceStore) (r : SequenceStore) :
    (rows.map (fun x => if x.TableName == r.TableName then r else x)).map
      (fun x => if x.TableName == r.TableName then r else x) =
    rows.map (fun x => if x.TableName == r.TableName then r else x) := by
  rw [List.map_map]
  apply List.map_congr_left
  intro x _
  simp only [Function.comp]
  by_cases hx : (x.TableName == r.TableName) = true
  · rw [if_pos hx]
    simp
  · rw [if_neg hx, if_neg hx]

theorem update_of_not_any (rows : List SequenceStore) (r : SequenceStore)
    (h : ¬ rows.any (fun x => x.TableName == r.TableName) = true) :
    rows.map (fun x => if x.TableName == r.TableName then r else x) = rows := by
  induction rows with
  | nil => rfl
  | cons x xs ih =>
    rw [List.any_cons, Bool.or_eq_true, not_or] at h
    rw [List.map_cons, if_neg h.1, ih h.2]

/-- Saving the same record a second time changes nothing. -/
theorem saveRow_idem (rows : List SequenceStore) (r : SequenceStore) :
    saveRow (saveRow rows r) r = saveRow rows r := by
  by_cases h : rows.any (fun x => x.TableName == r.TableName) = true
  · have h1 : saveRow rows r =
        rows.map (fun x => if x.TableName == r.TableName then r else x) := by
      unfold saveRow; rw [if_pos h]
    have h2 : (rows.map (fun x => if x.TableName == r.TableName then r else x)).any
        (fun x => x.TableName == r.TableName) = true := by
      obtain ⟨x, hx, hp⟩ := List.any_eq_true.mp h
      refine List.any_eq_true.mpr ⟨r, ?_, by simp⟩
      exact List.mem_map.mpr ⟨x, hx, by rw [if_pos hp]⟩
    rw [h1]
    unfold saveRow
    rw [if_pos h2, update_idem]
  · have h1 : saveRow rows r = rows ++ [r] := by
      unfold saveRow; rw [if_neg h]
    have h2 : (rows ++ [r]).any (fun x => x.TableName == r.TableName) = true := by
      simp
    rw [h1]
    unfold saveRow
    rw [if_pos h2, List.map_append, update_of_not_any rows r h]
    simp

theorem saveTable_idem (table : Option (List SequenceStore)) (r : SequenceStore) :
    saveTable (saveTable table r) r = saveTable table r := by
  cases table with
  | none => rfl
  | some rows => exact congrArg some (saveRow_idem rows r)

/-- The two atomic steps of a request, taken one after the other without interruption,
are one call of `buildFakeSequenceGenerator`. -/
theorem step_twice (sequenceName : String) (scope : Scope) (s : State) :
    Request.step sequenceName scope (Request.step sequenceName scope Request.start s).1
        (Request.step sequenceName scope Request.start s).2 =
      (Request.returned (buildFakeSequenceGenerator sequenceName scope s).1.1
          (buildFakeSequenceGenerator sequenceName scope s).1.2,
        (buildFakeSequenceGenerator sequenceName scope s).2) := by
  unfold buildFakeSequenceGenerator
  by_cases hg : (sequenceName != "AUTO_INCREMENT") = true
  · simp only [Request.step, if_pos hg]
  · simp only [Request.step, if_neg hg]

/-- Scan, scan, save, save: both requests return what a single call returns, and the
table ends as a single call leaves it. -/
theorem race_eq (scope : Scope) (s : State) :
    (runSchedule "AUTO_INCREMENT" scope [false, true, false, true]
        (Request.start, Request.start, s)).1 =
      Request.returned (buildFakeSequenceGenerator "AUTO_INCREMENT" scope s).1.1 true ∧
    (runSchedule "AUTO_INCREMENT" scope [false, true, false, true]
        (Request.start, Request.start, s)).2.1 =
      Request.returned (buildFakeSequenceGenerator "AUTO_INCREMENT" scope s).1.1 true ∧
    (runSchedule "AUTO_INCREMENT" scope [false, true, false, true]
        (Request.start, Request.start, s)).2.2.table =
      (buildFakeSequenceGenerator "AUTO_INCREMENT" scope s).2.table := by
  have hg : ("AUTO_INCREMENT" != "AUTO_INCREMENT") = false := by decide
  unfold buildFakeSequenceGenerator
  simp only [runSchedule, Request.step, hg, Bool.false_eq_true, if_false]
  cases s.sequenceStoreExists
  · simp only [Bool.not_false, if_true, Bool.not_true, Bool.false_eq_true, if_false,
      saveTable_idem]
    exact ⟨trivial, trivial, trivial⟩
  · simp only [Bool.not_true, Bool.false_eq_true, if_false, saveTable_idem]
    exact ⟨trivial, trivial, trivial⟩

/-- C9 (amended): the read-increment-write sequence is not atomic.  For every table and
every state, the interleaving scan, scan, save, save of two requests makes both read the
same row and both write back and return the same value, the one a single call returns,
and leaves the table as a single call leaves it.  For a non-empty table identifier whose
persisted value `n` satisfies `n + 1 < 2^53`, with the counter table present or
`sequenceStoreExists` unset, each of the two serialized orders returns the two distinct
consecutive values `n + 1` and `n + 2`. -/
theorem C9_race_duplicates (scope : Scope) (s : State) :
    ((runSchedule "AUTO_INCREMENT" scope [false, true, false, true]
          (Request.start, Request.start, s)).1 =
        Request.returned (buildFakeSequenceGenerator "AUTO_INCREMENT" scope s).1.1 true ∧
      (runSchedule "AUTO_INCREMENT" scope [false, true, false, true]
          (Request.start, Request.start, s)).2.1 =
        Request.returned (buildFakeSequenceGenerator "AUTO_INCREMENT" scope s).1.1 true ∧
      (runSchedule "AUTO_INCREMENT" scope [false, true, false, true]
          (Request.start, Request.start, s)).2.2.table =
        (buildFakeSequenceGenerator "AUTO_INCREMENT" scope s).2.table) ∧
    (scope.QuotedTableName ≠ "" →
      currentValue s.rows scope.QuotedTableName + 1 < 2 ^ 53 →
      (s.table.isSome = true ∨ s.sequenceStoreExists = false) →
      (runSchedule "AUTO_INCREMENT" scope [false, false, true, true]
          (Request.start, Request.start, s)).1 =
        Request.returned (currentValue s.rows scope.QuotedTableName + 1) true ∧
      (runSchedule "AUTO_INCREMENT" scope [false, false, true, true]
          (Request.start, Request.start, s)).2.1 =
        Request.returned (currentValue s.rows scope.QuotedTableName + 2) true) ∧
    (scope.QuotedTableName ≠ "" →
      currentValue s.rows scope.QuotedTableName + 1 < 2 ^ 53 →
      (s.table.isSome = true ∨ s.sequenceStoreExists = false) →
      (runSchedule "AUTO_INCREMENT" scope [true, true, false, false]
          (Request.start, Request.start, s)).1 =
        Request.returned (currentValue s.rows scope.QuotedTableName + 2) true ∧
      (runSchedule "AUTO_INCREMENT" scope [true, true, false, false]
          (Request.start, Request.start, s)).2.1 =
        Request.returned (currentValue s.rows scope.QuotedTableName + 1) true) := by
  have hserial : scope.QuotedTableName ≠ "" →
      currentValue s.rows scope.QuotedTableName + 1 < 2 ^ 53 →
      (s.table.isSome = true ∨ s.sequenceStoreExists = false) →
      (buildFakeSequenceGenerator "AUTO_INCREMENT" scope s).1 =
        (currentValue s.rows scope.QuotedTableName + 1, true) ∧
      (buildFakeSequenceGenerator "AUTO_INCREMENT" scope
        (buildFakeSequenceGenerator "AUTO_INCREMENT" scope s).2).1 =
        (currentValue s.rows scope.QuotedTableName + 2, true) := by
    intro ht hn hr
    have hlt : currentValue s.rows scope.QuotedTableName < 2 ^ 53 := by omega
    have hcur := alloc_current_of_ready scope s ht hr
    rw [f64AddOne_exact _ hlt] at hcur
    refine ⟨?_, ?_⟩
    · rw [alloc_eq scope s ht, f64AddOne_exact _ hlt]
    · rw [alloc_eq scope _ ht, hcur, f64AddOne_exact _ hn]
  refine ⟨race_eq scope s, ?_, ?_⟩
  · intro ht hn hr
    obtain ⟨h1, h2⟩ := hserial ht hn hr
    simp only [runSchedule, step_twice]
    rw [h2, h1]
    exact ⟨rfl, rfl⟩
  · intro ht hn hr
    obtain ⟨h1, h2⟩ := hserial ht hn hr
    simp only [runSchedule, step_twice]
    rw [h2, h1]
    exact ⟨rfl, rfl⟩

/-- Instance of C9 for the table ORDERS with persisted value 2. -/
theorem C9_race_duplicates_witness :
    (runSchedule "AUTO_INCREMENT" (scopeFor "ORDERS") [false, true, false, true]
        (Request.start, Request.start, ⟨true, some [⟨"ORDERS", 2⟩], [], []⟩)).1 =
      Request.returned 3 true ∧
    (runSchedule "AUTO_INCREMENT" (scopeFor "ORDERS") [false, true, false, true]
        (Request.start, Request.start, ⟨true, some [⟨"ORDERS", 2⟩], [], []⟩)).2.1 =
      Request.returned 3 true ∧
    (runSchedule "AUTO_INCREMENT" (scopeFor "ORDERS") [false, false, true, true]
        (Request.start, Request.start, ⟨true, some [⟨"ORDERS", 2⟩], [], []⟩)).2.1 =
      Request.returned 4 true :=
  ⟨(C9_race_duplicates (scopeFor "ORDERS") ⟨true, some [⟨"ORDERS", 2⟩], [], []⟩).1.1.trans
      (by decide),
    (C9_race_duplicates (scopeFor "ORDERS") ⟨true, some [⟨"ORDERS", 2⟩], [], []⟩).1.2.1.trans
      (by decide),
    ((C9_race_duplicates (scopeFor "ORDERS") ⟨true, some [⟨"ORDERS", 2⟩], [], []⟩).2.1
      (by decide) (by decide) (by decide)).2⟩

/-- C9 fails as stated for the serialized orders, at three inputs: from the persisted
value `2^53 - 1` the second of two serialized requests returns `2^53` like the first;
for the empty table identifier both serialized requests return `1`; and with the counter
table absent while `sequenceStoreExists` is set both serialized requests return `1`. -/
theorem C9_counterexample :
    ((runSchedule "AUTO_INCREMENT" (scopeFor "ORDERS") [false, false, true, true]
          (Request.start, Request.start,
            ⟨true, some [⟨"ORDERS", 9007199254740991⟩], [], []⟩)).1 =
        Request.returned 9007199254740992 true ∧
      (runSchedule "AUTO_INCREMENT" (scopeFor "ORDERS") [false, false, true, true]
          (Request.start, Request.start,
            ⟨true, some [⟨"ORDERS", 9007199254740991⟩], [], []⟩)).2.1 =
        Request.returned 9007199254740992 true) ∧
    ((runSchedule "AUTO_INCREMENT" (scopeFor "") [false, false, true, true]
          (Request.start, Request.start, ⟨true, some [], [], []⟩)).1 =
        Request.returned 1 true ∧
      (runSchedule "AUTO_INCREMENT" (scopeFor "") [false, false, true, true]
          (Request.start, Request.start, ⟨true, some [], [], []⟩)).2.1 =
        Request.returned 1 true) ∧
    ((runSchedule "AUTO_INCREMENT" (scopeFor "ORDERS") [false, false, true, true]
          (Request.start, Request.start, ⟨true, none, [], []⟩)).1 =
        Request.returned 1 true ∧
      (runSchedule "AUTO_INCREMENT" (scopeFor "ORDERS") [false, false, true, true]
          (Request.start, Request.start, ⟨true, none, [], []⟩)).2.1 =
        Request.returned 1 true) := by
  decide

/-! ## Lemmas on the identity-insert hook -/

theorem find_setField_ne (name other : String) (v : Nat) (fs : List Field)
    (h : name ≠ other) :
    (setField name v fs).find? (fun f => f.Name == other) =
      fs.find? (fun f => f.Name == other) := by
  induction fs with
  | nil => rfl
  | cons x xs ih =>
    unfold setField
    by_cases hx : (x.Name == name) = true
    · rw [if_pos hx, List.find?_cons, List.find?_cons]
      have hxo : (x.Name == other) = false := by
        rw [beq_iff_eq] at hx
        rw [hx]
        simpa using h
      simp only [hxo]
    · rw [if_neg hx, List.find?_cons, List.find?_cons, ih]

theorem find_setField_found (name : String) (v : Nat) (fs : List Field) (f : Field)
    (h : fs.find? (fun g => g.Name == name) = some f) :
    (setField name v fs).find? (fun g => g.Name == name) =
      some { f with Value := v, IsBlank := decide (v = 0) } := by
  induction fs with
  | nil => simp at h
  | cons x xs ih =>
    unfold setField
    rw [List.find?_cons] at h
    by_cases hx : (x.Name == name) = true
    · rw [hx] at h
      have hxf : x = f := Option.some.inj h
      subst hxf
      rw [if_pos hx, List.find?_cons]
      have hx2 : (({ x with Value := v, IsBlank := decide (v = 0) } : Field).Name == name) =
          true := hx
      rw [hx2]
    · have hx2 : (x.Name == name) = false := by simpa using hx
      rw [hx2] at h
      rw [if_neg hx, List.find?_cons, hx2]
      exact ih h

theorem find_of_nodup (fs : List Field) (f : Field)
    (hn : (fs.map (fun g => g.Name)).Nodup) (hf : f ∈ fs) :
    fs.find? (fun g => g.Name == f.Name) = some f := by
  induction fs with
  | nil => simp at hf
  | cons x xs ih =>
    rw [List.map_cons, List.nodup_cons] at hn
    rw [List.find?_cons]
    rcases List.mem_cons.mp hf with h | h
    · subst h
      simp
    · have hx : (x.Name == f.Name) = false := by
        have : x.Name ≠ f.Name := by
          intro e
          apply hn.1
          rw [e]
          exact List.mem_map.mpr ⟨f, h, rfl⟩
        simpa using this
      rw [hx]
      exact ih hn.2 h

theorem body_not_pending (rowScan : List Stmt → String → Option Nat) (f : Field)
    (acc : Scope × State) (h : f.pending = false) :
    setIdentityInsertField rowScan f acc = acc := by
  unfold setIdentityInsertField
  unfold Field.pending at h
  cases ht : List.lookup "AUTO_INCREMENT" f.TagSettings with
  | none => rfl
  | some seq =>
    rw [ht] at h
    have hb : f.IsBlank = false := by simpa using h
    simp only [hb, Bool.false_eq_true, if_false]

theorem body_real (rowScan : List Stmt → String → Option Nat) (f : Field)
    (acc : Scope × State) (seq : String) (hb : f.IsBlank = true)
    (ht : List.lookup "AUTO_INCREMENT" f.TagSettings = some seq)
    (hs : seq ≠ "AUTO_INCREMENT") :
    setIdentityInsertField rowScan f acc =
      ((acc.1.SetColumn f.Name
          ((rowScan acc.2.issued ("SELECT " ++ seq ++ ".nextval FROM dual")).getD 0)).InstanceSet
          "oracle:sequence_insert_on" true,
        { acc.2 with
          issued := acc.2.issued ++ [Stmt.raw ("SELECT " ++ seq ++ ".nextval FROM dual")] }) := by
  have hstmt : "SELECT " ++ seq ++ ".nextval " ++ SelectFromDummyTable =
      "SELECT " ++ seq ++ ".nextval FROM dual" := by
    rw [String.append_assoc ("SELECT " ++ seq)]
    rfl
  unfold setIdentityInsertField
  simp only [ht, hb, if_true, alloc_unsupported seq acc.1 acc.2 hs, Bool.not_false, hstmt]

theorem body_placeholder (rowScan : List Stmt → String → Option Nat) (f : Field)
    (acc : Scope × State) (hb : f.IsBlank = true)
    (ht : List.lookup "AUTO_INCREMENT" f.TagSettings = some "AUTO_INCREMENT") :
    setIdentityInsertField rowScan f acc =
      ((acc.1.SetColumn f.Name
          (buildFakeSequenceGenerator "AUTO_INCREMENT" acc.1 acc.2).1.1).InstanceSet
          "oracle:sequence_insert_on" true,
        (buildFakeSequenceGenerator "AUTO_INCREMENT" acc.1 acc.2).2) := by
  unfold setIdentityInsertField
  simp only [ht, hb, if_true, (alloc_ok acc.1 acc.2).1, Bool.not_true, Bool.false_eq_true,
    if_false]

/-- The scope after one iteration: the scope before it, or the scope before it with one
value written to the field of the iteration and the flag set. -/
theorem body_scope (rowScan : List Stmt → String → Option Nat) (f : Field)
    (acc : Scope × State) :
    (f.pending = false ∧ setIdentityInsertField rowScan f acc = acc) ∨
    (f.pending = true ∧ ∃ v : Nat, (setIdentityInsertField rowScan f acc).1 =
      (acc.1.SetColumn f.Name v).InstanceSet "oracle:sequence_insert_on" true) := by
  cases hp : f.pending with
  | false => exact Or.inl ⟨rfl, body_not_pending rowScan f acc hp⟩
  | true =>
    right
    refine ⟨rfl, ?_⟩
    unfold Field.pending at hp
    cases ht : List.lookup "AUTO_INCREMENT" f.TagSettings with
    | none => rw [ht] at hp; simp at hp
    | some seq =>
      have hb : f.IsBlank = true := by
        rw [ht] at hp; simpa using hp
      unfold setIdentityInsertField
      simp only [ht, hb, if_true]
      exact ⟨_, rfl⟩

theorem identityLoop_cons (rowScan : List Stmt → String → Option Nat) (f : Field)
    (fs : List Field) (acc : Scope × State) :
    identityLoop rowScan (f :: fs) acc =
      identityLoop rowScan fs (setIdentityInsertField rowScan f acc) := rfl

theorem identityLoop_append (rowScan : List Stmt → String → Option Nat)
    (fs gs : List Field) (acc : Scope × State) :
    identityLoop rowScan (fs ++ gs) acc =
      identityLoop rowScan gs (identityLoop rowScan fs acc) := by
  unfold identityLoop
  rw [List.foldl_append]

theorem identityLoop_not_pending (rowScan : List Stmt → String → Option Nat)
    (fs : List Field) (h : ∀ f ∈ fs, f.pending = false) (acc : Scope × State) :
    identityLoop rowScan fs acc = acc := by
  induction fs generalizing acc with
  | nil => rfl
  | cons f fs ih =>
    rw [identityLoop_cons, body_not_pending rowScan f acc (h f (List.mem_cons_self _ _))]
    exact ih (fun g hg => h g (List.mem_cons_of_mem _ hg)) acc

/-- The loop leaves the field called `name` as it is when no pending field of the loop
carries that name. -/
theorem identityLoop_find (rowScan : List Stmt → String → Option Nat) (name : String)
    (fs : List Field) (h : ∀ g ∈ fs, g.pending = true → g.Name ≠ name)
    (acc : Scope × State) :
    (identityLoop rowScan fs acc).1.fields.find? (fun g => g.Name == name) =
      acc.1.fields.find? (fun g => g.Name == name) := by
  induction fs generalizing acc with
  | nil => rfl
  | cons f fs ih =>
    rw [identityLoop_cons, ih (fun g hg => h g (List.mem_cons_of_mem _ hg))]
    rcases body_scope rowScan f acc with ⟨_, h1⟩ | ⟨hp, v, h1⟩
    · rw [h1]
    · rw [h1]
      exact find_setField_ne f.Name name v acc.1.fields (h f (List.mem_cons_self _ _) hp)

theorem identityLoop_table (rowScan : List Stmt → String → Option Nat)
    (fs : List Field) (acc : Scope × State) :
    (identityLoop rowScan fs acc).1.QuotedTableName = acc.1.QuotedTableName := by
  induction fs generalizing acc with
  | nil => rfl
  | cons f fs ih =>
    rw [identityLoop_cons, ih]
    rcases body_scope rowScan f acc with ⟨_, h1⟩ | ⟨_, v, h1⟩
    · rw [h1]
    · rw [h1]
      rfl

theorem identityLoop_flag (rowScan : List Stmt → String → Option Nat)
    (fs : List Field) (acc : Scope × State)
    (h : acc.1.InstanceGet "oracle:sequence_insert_on" = some true) :
    (identityLoop rowScan fs acc).1.InstanceGet "oracle:sequence_insert_on" = some true := by
  induction fs generalizing acc with
  | nil => exact h
  | cons f fs ih =>
    rw [identityLoop_cons]
    apply ih
    rcases body_scope rowScan f acc with ⟨_, h1⟩ | ⟨_, v, h1⟩
    · rw [h1]; exact h
    · rw [h1]
      rfl

theorem mem_of_mem_PrimaryFields (scope : Scope) (f : Field) (h : f ∈ scope.PrimaryFields) :
    f ∈ scope.fields :=
  (List.mem_filter.mp h).1

/-- The parts of a split list of distinct elements do not contain the element of the
split. -/
theorem ne_of_split (l pre post : List Field) (f : Field)
    (hn : (l.map (fun g => g.Name)).Nodup) (hs : l = pre ++ f :: post) :
    ∀ g, g ∈ pre ∨ g ∈ post → g.Name ≠ f.Name := by
  subst hs
  rw [List.map_append, List.map_cons] at hn
  intro g hg e
  rcases hg with hg | hg
  · have hd := (List.nodup_append.mp hn).2.2
    exact hd (List.mem_map.mpr ⟨g, hg, rfl⟩) (by rw [e]; exact List.mem_cons_self _ _)
  · have hd := (List.nodup_cons.mp (List.nodup_append.mp hn).2.1).1
    exact hd (by rw [← e]; exact List.mem_map.mpr ⟨g, hg, rfl⟩)

theorem nodup_PrimaryFields (scope : Scope)
    (hn : (scope.fields.map (fun g => g.Name)).Nodup) :
    (scope.PrimaryFields.map (fun g => g.Name)).Nodup := by
  unfold Scope.PrimaryFields
  exact List.Nodup.sublist (List.Sublist.map _ (List.filter_sublist _)) hn

theorem pending_eq_false (f : Field)
    (h : f.IsBlank = false ∨ List.lookup "AUTO_INCREMENT" f.TagSettings = none) :
    f.pending = false := by
  unfold Field.pending
  rcases h with h | h
  · rw [h]; rfl
  · rw [h]; simp

/-! ## The identity-insert hook: claims C4, C5 and C6 -/

/-- C4 (amended): in an entity with distinct field names the hook leaves every field that
is not a primary key, or is not blank, or carries no AUTO_INCREMENT tag exactly as it
was.  In every entity: when no primary-key field is both blank and tagged the hook
changes nothing at all (no allocation, no statement issued, no counter row changed, no
flag set); with a dialect name other than "goracle" the hook changes nothing; and the
iteration of the loop for a field that is not blank or not tagged changes nothing. -/
theorem C4_hook_leaves_supplied_keys (rowScan : List Stmt → String → Option Nat)
    (scope : Scope) (s : State) :
    ((scope.fields.map (fun g => g.Name)).Nodup →
      ∀ f ∈ scope.fields,
        (f.IsPrimaryKey = false ∨ f.IsBlank = false ∨
          List.lookup "AUTO_INCREMENT" f.TagSettings = none) →
        (setIdentityInsert rowScan scope s).1.fields.find? (fun g => g.Name == f.Name) =
          some f) ∧
    ((∀ f ∈ scope.fields, f.IsPrimaryKey = true →
        (f.IsBlank = false ∨ List.lookup "AUTO_INCREMENT" f.TagSettings = none)) →
      setIdentityInsert rowScan scope s = (scope, s)) ∧
    (scope.dialectName ≠ "goracle" → setIdentityInsert rowScan scope s = (scope, s)) ∧
    (∀ (f : Field) (acc : Scope × State),
      (f.IsBlank = false ∨ List.lookup "AUTO_INCREMENT" f.TagSettings = none) →
      setIdentityInsertField rowScan f acc = acc) := by
  refine ⟨?_, ?_, ?_, fun f acc h => body_not_pending rowScan f acc (pending_eq_false f h)⟩
  · intro hn f hf hcase
    unfold setIdentityInsert
    split
    · rw [identityLoop_find rowScan f.Name scope.PrimaryFields _ (scope, s)]
      · exact find_of_nodup scope.fields f hn hf
      · intro g hg hp e
        have hgf : g = f :=
          List.inj_on_of_nodup_map hn (mem_of_mem_PrimaryFields scope g hg) hf e
        subst hgf
        have hpk : g.IsPrimaryKey = true := by
          have := (List.mem_filter.mp hg).2
          simpa using this
        rcases hcase with h | h
        · rw [hpk] at h; exact Bool.noConfusion h
        · rw [pending_eq_false g h] at hp; exact Bool.noConfusion hp
    · exact find_of_nodup scope.fields f hn hf
  · intro h
    unfold setIdentityInsert
    split
    · apply identityLoop_not_pending
      intro f hf
      have hm := List.mem_filter.mp hf
      exact pending_eq_false f (h f hm.1 (by simpa using hm.2))
    · rfl
  · intro hd
    unfold setIdentityInsert
    have : (scope.dialectName == "goracle") = false := by simpa using hd
    rw [this]
    rfl

/-- Instance of C4: an entity of table ORDERS whose key `ID` is supplied by the caller. -/
theorem C4_hook_leaves_supplied_keys_witness :
    (setIdentityInsert (fun _ _ => none)
        ⟨"goracle", "ORDERS",
          [⟨"ID", true, false, [("AUTO_INCREMENT", "AUTO_INCREMENT")], 7⟩,
            ⟨"Title", false, true, [], 0⟩], []⟩
        ⟨false, some [⟨"ORDERS", 3⟩], [], []⟩).1.fields.find? (fun g => g.Name == "ID") =
      some ⟨"ID", true, false, [("AUTO_INCREMENT", "AUTO_INCREMENT")], 7⟩ ∧
    setIdentityInsert (fun _ _ => none)
        ⟨"goracle", "ORDERS",
          [⟨"ID", true, false, [("AUTO_INCREMENT", "AUTO_INCREMENT")], 7⟩,
            ⟨"Title", false, true, [], 0⟩], []⟩
        ⟨false, some [⟨"ORDERS", 3⟩], [], []⟩ =
      (⟨"goracle", "ORDERS",
          [⟨"ID", true, false, [("AUTO_INCREMENT", "AUTO_INCREMENT")], 7⟩,
            ⟨"Title", false, true, [], 0⟩], []⟩,
        ⟨false, some [⟨"ORDERS", 3⟩], [], []⟩) ∧
    setIdentityInsert (fun _ _ => none)
        ⟨"mysql", "ORDERS", [⟨"ID", true, true, [("AUTO_INCREMENT", "AUTO_INCREMENT")], 0⟩], []⟩
        ⟨false, some [⟨"ORDERS", 3⟩], [], []⟩ =
      (⟨"mysql", "ORDERS", [⟨"ID", true, true, [("AUTO_INCREMENT", "AUTO_INCREMENT")], 0⟩], []⟩,
        ⟨false, some [⟨"ORDERS", 3⟩], [], []⟩) :=
  ⟨(C4_hook_leaves_supplied_keys (fun _ _ => none)
      ⟨"goracle", "ORDERS",
        [⟨"ID", true, false, [("AUTO_INCREMENT", "AUTO_INCREMENT")], 7⟩,
          ⟨"Title", false, true, [], 0⟩], []⟩
      ⟨false, some [⟨"ORDERS", 3⟩], [], []⟩).1 (by decide)
      ⟨"ID", true, false, [("AUTO_INCREMENT", "AUTO_INCREMENT")], 7⟩ (by decide) (by decide),
    (C4_hook_leaves_supplied_keys (fun _ _ => none)
      ⟨"goracle", "ORDERS",
        [⟨"ID", true, false, [("AUTO_INCREMENT", "AUTO_INCREMENT")], 7⟩,
          ⟨"Title", false, true, [], 0⟩], []⟩
      ⟨false, some [⟨"ORDERS", 3⟩], [], []⟩).2.1 (by decide),
    (C4_hook_leaves_supplied_keys (fun _ _ => none)
      ⟨"mysql", "ORDERS", [⟨"ID", true, true, [("AUTO_INCREMENT", "AUTO_INCREMENT")], 0⟩], []⟩
      ⟨false, some [⟨"ORDERS", 3⟩], [], []⟩).2.2.1 (by decide)⟩

/-- C4 fails as stated for an entity with two fields of one name: the key `ID` supplied
by the caller (7, no tag) is overwritten with the value allocated for the blank tagged
field of the same name, which stays blank. -/
theorem C4_counterexample :
    (setIdentityInsert (fun _ _ => none)
        ⟨"goracle", "ORDERS",
          [⟨"ID", true, false, [], 7⟩,
            ⟨"ID", true, true, [("AUTO_INCREMENT", "AUTO_INCREMENT")], 0⟩], []⟩
        ⟨true, some [⟨"ORDERS", 3⟩], [], []⟩).1.fields =
      [⟨"ID", true, false, [], 4⟩,
        ⟨"ID", true, true, [("AUTO_INCREMENT", "AUTO_INCREMENT")], 0⟩] := by
  decide

theorem hook_split (rowScan : List Stmt → String → Option Nat) (scope : Scope) (s : State)
    (pre post : List Field) (f : Field) (hd : scope.dialectName = "goracle")
    (hsplit : scope.PrimaryFields = pre ++ f :: post) :
    setIdentityInsert rowScan scope s =
      identityLoop rowScan post
        (setIdentityInsertField rowScan f (identityLoop rowScan pre (scope, s))) := by
  unfold setIdentityInsert
  have : (scope.dialectName == "goracle") = true := by rw [hd]; rfl
  rw [if_pos this, hsplit, identityLoop_append, identityLoop_cons]


/-- In an entity with distinct field names, when the loop reaches the primary field `f`
the field called `f.Name` is still `f`. -/
theorem find_before (rowScan : List Stmt → String → Option Nat) (scope : Scope) (s : State)
    (pre post : List Field) (f : Field)
    (hn : (scope.fields.map (fun g => g.Name)).Nodup)
    (hsplit : scope.PrimaryFields = pre ++ f :: post) :
    (identityLoop rowScan pre (scope, s)).1.fields.find? (fun g => g.Name == f.Name) =
      some f := by
  have hf : f ∈ scope.PrimaryFields := by rw [hsplit]; simp
  rw [identityLoop_find rowScan f.Name pre _ (scope, s)]
  · exact find_of_nodup scope.fields f hn (mem_of_mem_PrimaryFields scope f hf)
  · intro g hg _
    exact ne_of_split scope.PrimaryFields pre post f (nodup_PrimaryFields scope hn) hsplit g
      (Or.inl hg)

/-- In an entity with distinct field names, the value the iteration for `f` writes ends
up in `f`, and stays there to the end of the hook. -/
theorem find_after (rowScan : List Stmt → String → Option Nat) (scope : Scope) (s : State)
    (pre post : List Field) (f : Field) (v : Nat) (st : State)
    (hn : (scope.fields.map (fun g => g.Name)).Nodup)
    (hsplit : scope.PrimaryFields = pre ++ f :: post) :
    (identityLoop rowScan post
        (((identityLoop rowScan pre (scope, s)).1.SetColumn f.Name v).InstanceSet
          "oracle:sequence_insert_on" true, st)).1.fields.find?
        (fun g => g.Name == f.Name) =
      some { f with Value := v, IsBlank := decide (v = 0) } := by
  rw [identityLoop_find rowScan f.Name post _ _]
  · exact find_setField_found f.Name v _ f (find_before rowScan scope s pre post f hn hsplit)
  · intro g hg _
    exact ne_of_split scope.PrimaryFields pre post f (nodup_PrimaryFields scope hn) hsplit g
      (Or.inr hg)

/-- C6 (amended): when the loop of the hook (dialect "goracle") reaches a blank
primary-key field `f` whose AUTO_INCREMENT tag names a real sequence `S`, the iteration
leaves the counter table, the package variable and the log as they are, issues exactly
the statement "SELECT S.nextval FROM dual", passes the scanned value, or zero when no row
is scanned or the scan fails, to `SetColumn` under the name of `f`, and sets the flag
"oracle:sequence_insert_on", which is still set when the hook ends.  In an entity with
distinct field names the field `f` holds that value when the hook ends. -/
theorem C6_real_sequence_query (rowScan : List Stmt → String → Option Nat) (scope : Scope)
    (s : State) (pre post : List Field) (f : Field) (S : String) (before : Scope × State)
    (hd : scope.dialectName = "goracle")
    (hsplit : scope.PrimaryFields = pre ++ f :: post)
    (hb : f.IsBlank = true)
    (htag : List.lookup "AUTO_INCREMENT" f.TagSettings = some S)
    (hS : S ≠ "AUTO_INCREMENT")
    (hbefore : before = identityLoop rowScan pre (scope, s)) :
    setIdentityInsert rowScan scope s =
      identityLoop rowScan post (setIdentityInsertField rowScan f before) ∧
    setIdentityInsertField rowScan f before =
      ((before.1.SetColumn f.Name
          ((rowScan before.2.issued ("SELECT " ++ S ++ ".nextval FROM dual")).getD 0)).InstanceSet
          "oracle:sequence_insert_on" true,
        { before.2 with
          issued := before.2.issued ++ [Stmt.raw ("SELECT " ++ S ++ ".nextval FROM dual")] }) ∧
    (setIdentityInsert rowScan scope s).1.InstanceGet "oracle:sequence_insert_on" =
      some true ∧
    ((scope.fields.map (fun g => g.Name)).Nodup →
      ∀ v, rowScan before.2.issued ("SELECT " ++ S ++ ".nextval FROM dual") = some v →
        (setIdentityInsert rowScan scope s).1.fields.find? (fun g => g.Name == f.Name) =
          some { f with Value := v, IsBlank := decide (v = 0) }) ∧
    ((scope.fields.map (fun g => g.Name)).Nodup →
      rowScan before.2.issued ("SELECT " ++ S ++ ".nextval FROM dual") = none →
        (setIdentityInsert rowScan scope s).1.fields.find? (fun g => g.Name == f.Name) =
          some { f with Value := 0, IsBlank := true }) := by
  subst hbefore
  have hhook := hook_split rowScan scope s pre post f hd hsplit
  have hbody := body_real rowScan f (identityLoop rowScan pre (scope, s)) S hb htag hS
  refine ⟨hhook, hbody, ?_, ?_, ?_⟩
  · rw [hhook]
    apply identityLoop_flag
    rw [hbody]
    rfl
  · intro hn v hv
    rw [hhook, hbody, hv]
    exact find_after rowScan scope s pre post f v _ hn hsplit
  · intro hn hv
    rw [hhook, hbody, hv]
    exact find_after rowScan scope s pre post f 0 _ hn hsplit

/-- Instance of C6: an entity of table ORDERS whose blank key `ID` names the sequence
`ORDERS_SEQ`, which answers 17. -/
theorem C6_real_sequence_query_witness :
    setIdentityInsert (fun _ q => if q = "SELECT ORDERS_SEQ.nextval FROM dual" then some 17 else none)
      ⟨"goracle", "ORDERS", [⟨"ID", true, true, [("AUTO_INCREMENT", "ORDERS_SEQ")], 0⟩], []⟩
      ⟨false, some [⟨"ORDERS", 3⟩], [], []⟩ =
    (⟨"goracle", "ORDERS", [⟨"ID", true, false, [("AUTO_INCREMENT", "ORDERS_SEQ")], 17⟩],
        [("oracle:sequence_insert_on", true)]⟩,
      ⟨false, some [⟨"ORDERS", 3⟩], [Stmt.raw "SELECT ORDERS_SEQ.nextval FROM dual"], []⟩) :=
  (C6_real_sequence_query
    (fun _ q => if q = "SELECT ORDERS_SEQ.nextval FROM dual" then some 17 else none)
    ⟨"goracle", "ORDERS", [⟨"ID", true, true, [("AUTO_INCREMENT", "ORDERS_SEQ")], 0⟩], []⟩
    ⟨false, some [⟨"ORDERS", 3⟩], [], []⟩ [] []
    ⟨"ID", true, true, [("AUTO_INCREMENT", "ORDERS_SEQ")], 0⟩ "ORDERS_SEQ"
    (⟨"goracle", "ORDERS", [⟨"ID", true, true, [("AUTO_INCREMENT", "ORDERS_SEQ")], 0⟩], []⟩,
      ⟨false, some [⟨"ORDERS", 3⟩], [], []⟩)
    rfl (by decide) rfl (by decide) (by decide) rfl).1.trans (by decide)

/-- C6 fails as stated for an entity with two fields of one name: the scanned value 17
goes to the first field called `CODE`, a key supplied by the caller, and the blank field
tagged with the sequence `ORDERS_SEQ` stays blank at zero. -/
theorem C6_counterexample :
    (setIdentityInsert
        (fun _ q => if q = "SELECT ORDERS_SEQ.nextval FROM dual" then some 17 else none)
        ⟨"goracle", "ORDERS",
          [⟨"CODE", true, false, [], 7⟩,
            ⟨"CODE", true, true, [("AUTO_INCREMENT", "ORDERS_SEQ")], 0⟩], []⟩
        ⟨false, some [⟨"ORDERS", 3⟩], [], []⟩).1.fields =
      [⟨"CODE", true, false, [], 17⟩,
        ⟨"CODE", true, true, [("AUTO_INCREMENT", "ORDERS_SEQ")], 0⟩] := by
  decide

/-- The state after one iteration holds the table of the state before it, or is the
state after a placeholder call. -/
theorem body_state (rowScan : List Stmt → String → Option Nat) (f : Field)
    (acc : Scope × State) :
    (setIdentityInsertField rowScan f acc).2.table = acc.2.table ∨
    (setIdentityInsertField rowScan f acc).2 =
      (buildFakeSequenceGenerator "AUTO_INCREMENT" acc.1 acc.2).2 := by
  cases hp : f.pending with
  | false => left; rw [body_not_pending rowScan f acc hp]
  | true =>
    unfold Field.pending at hp
    cases ht : List.lookup "AUTO_INCREMENT" f.TagSettings with
    | none => rw [ht] at hp; simp at hp
    | some seq =>
      have hb : f.IsBlank = true := by
        rw [ht] at hp; simpa using hp
      by_cases hs : seq = "AUTO_INCREMENT"
      · right
        subst hs
        rw [body_placeholder rowScan f acc hb ht]
      · left
        rw [body_real rowScan f acc seq hb ht hs]

theorem identityLoop_current_mono (rowScan : List Stmt → String → Option Nat)
    (fs : List Field) (t : String) (ht : t ≠ "") (acc : Scope × State) :
    currentValue acc.2.rows t ≤ currentValue (identityLoop rowScan fs acc).2.rows t := by
  induction fs generalizing acc with
  | nil => exact Nat.le_refl _
  | cons f fs ih =>
    rw [identityLoop_cons]
    refine Nat.le_trans ?_ (ih _)
    rcases body_state rowScan f acc with h | h
    · unfold State.rows
      rw [h]
    · rw [h]
      exact alloc_current_mono "AUTO_INCREMENT" acc.1 acc.2 t ht

/-- C5 (amended): when the loop of the hook (dialect "goracle") reaches a blank
primary-key field `f` tagged AUTO_INCREMENT with the placeholder, the iteration passes
the value returned by `buildFakeSequenceGenerator` for the table of the entity to
`SetColumn` under the name of `f`; that value is at least 1, and the flag
"oracle:sequence_insert_on" is set when the hook ends.  In an entity with distinct field
names the field `f` holds that value when the hook ends.  For a non-empty table
identifier whose persisted value is below `2^53` when the loop reaches `f`, and earlier
calls that started with the counter table present or `sequenceStoreExists` unset, the
value is strictly greater than every value those calls returned for the table. -/
theorem C5_placeholder_key_allocated (rowScan : List Stmt → String → Option Nat)
    (scope : Scope) (s0 : State) (cs : List (String × Scope)) (pre post : List Field)
    (f : Field) (before : Scope × State)
    (hd : scope.dialectName = "goracle")
    (hsplit : scope.PrimaryFields = pre ++ f :: post)
    (hb : f.IsBlank = true)
    (htag : List.lookup "AUTO_INCREMENT" f.TagSettings = some "AUTO_INCREMENT")
    (hbefore : before = identityLoop rowScan pre (scope, (runCalls cs s0).2)) :
    setIdentityInsert rowScan scope (runCalls cs s0).2 =
      identityLoop rowScan post
        ((before.1.SetColumn f.Name
            (buildFakeSequenceGenerator "AUTO_INCREMENT" scope before.2).1.1).InstanceSet
            "oracle:sequence_insert_on" true,
          (buildFakeSequenceGenerator "AUTO_INCREMENT" scope before.2).2) ∧
    ((scope.fields.map (fun g => g.Name)).Nodup →
      (setIdentityInsert rowScan scope (runCalls cs s0).2).1.fields.find?
          (fun g => g.Name == f.Name) =
        some { f with
          Value := (buildFakeSequenceGenerator "AUTO_INCREMENT" scope before.2).1.1,
          IsBlank := false }) ∧
    1 ≤ (buildFakeSequenceGenerator "AUTO_INCREMENT" scope before.2).1.1 ∧
    (setIdentityInsert rowScan scope (runCalls cs s0).2).1.InstanceGet
      "oracle:sequence_insert_on" = some true ∧
    (scope.QuotedTableName ≠ "" →
      currentValue before.2.rows scope.QuotedTableName < 2 ^ 53 →
      (s0.table.isSome = true ∨ s0.sequenceStoreExists = false) →
      ∀ p ∈ List.zip cs (runCalls cs s0).1,
        p.1.2.QuotedTableName = scope.QuotedTableName →
          p.2.1 < (buildFakeSequenceGenerator "AUTO_INCREMENT" scope before.2).1.1) := by
  subst hbefore
  have hhook := hook_split rowScan scope (runCalls cs s0).2 pre post f hd hsplit
  have htab := identityLoop_table rowScan pre (scope, (runCalls cs s0).2)
  have hbody := body_placeholder rowScan f
    (identityLoop rowScan pre (scope, (runCalls cs s0).2)) hb htag
  rw [alloc_scope_congr "AUTO_INCREMENT" _ scope _ htab] at hbody
  have hpos := (alloc_ok scope (identityLoop rowScan pre (scope, (runCalls cs s0).2)).2).2
  refine ⟨?_, ?_, hpos, ?_, ?_⟩
  · rw [hhook, hbody]
  · intro hn
    rw [hhook, hbody, find_after rowScan scope _ pre post f _ _ hn hsplit]
    have hne : ¬ ((buildFakeSequenceGenerator "AUTO_INCREMENT" scope
        (identityLoop rowScan pre (scope, (runCalls cs s0).2)).2).1.1 = 0) := by omega
    simp only [hne, decide_False]
  · rw [hhook]
    apply identityLoop_flag
    rw [hbody]
    rfl
  · intro hT hbound hr p hp hpt
    rw [alloc_eq scope _ hT, f64AddOne_exact _ hbound]
    have h1 := runCalls_values_le cs scope.QuotedTableName hT s0 hr p hp hpt
    have h2 := identityLoop_current_mono rowScan pre scope.QuotedTableName hT
      (scope, (runCalls cs s0).2)
    exact Nat.lt_succ_of_le (Nat.le_trans h1 h2)

/-- Instance of C5: after the calls for ORDERS returned 1 and 2, the hook writes 3 into
the blank key `ID` of an ORDERS entity. -/
theorem C5_placeholder_key_allocated_witness :
    (runCalls [("AUTO_INCREMENT", scopeFor "ORDERS"), ("AUTO_INCREMENT", scopeFor "ORDERS")]
        ⟨false, none, [], []⟩).1 = [(1, true), (2, true)] ∧
    (setIdentityInsert (fun _ _ => none)
        ⟨"goracle", "ORDERS",
          [⟨"ID", true, true, [("AUTO_INCREMENT", "AUTO_INCREMENT")], 0⟩,
            ⟨"Title", false, true, [], 0⟩], []⟩
        (runCalls [("AUTO_INCREMENT", scopeFor "ORDERS"), ("AUTO_INCREMENT", scopeFor "ORDERS")]
          ⟨false, none, [], []⟩).2).1.fields.find? (fun g => g.Name == "ID") =
      some ⟨"ID", true, false, [("AUTO_INCREMENT", "AUTO_INCREMENT")], 3⟩ :=
  ⟨by decide,
    ((C5_placeholder_key_allocated (fun _ _ => none)
      ⟨"goracle", "ORDERS",
        [⟨"ID", true, true, [("AUTO_INCREMENT", "AUTO_INCREMENT")], 0⟩,
          ⟨"Title", false, true, [], 0⟩], []⟩
      ⟨false, none, [], []⟩
      [("AUTO_INCREMENT", scopeFor "ORDERS"), ("AUTO_INCREMENT", scopeFor "ORDERS")]
      [] [] ⟨"ID", true, true, [("AUTO_INCREMENT", "AUTO_INCREMENT")], 0⟩
      (⟨"goracle", "ORDERS",
          [⟨"ID", true, true, [("AUTO_INCREMENT", "AUTO_INCREMENT")], 0⟩,
            ⟨"Title", false, true, [], 0⟩], []⟩,
        (runCalls [("AUTO_INCREMENT", scopeFor "ORDERS"), ("AUTO_INCREMENT", scopeFor "ORDERS")]
          ⟨false, none, [], []⟩).2)
      rfl (by decide) rfl (by decide) rfl).2.1 (by decide)).trans (by decide)⟩

/-- C5 fails as stated, at four inputs.
Two fields of one name: the allocated value 4 goes to the first field called `ID`, a key
supplied by the caller, and the blank tagged field stays blank at zero.
Persisted value `2^53`: after a call for ORDERS returned `2^53` the hook writes `2^53`
again.
Empty table identifier: after a call returned `1` the hook writes `1`.
Counter table absent while `sequenceStoreExists` is set: after a call for ORDERS returned
`1` the hook writes `1`. -/
theorem C5_counterexample :
    (setIdentityInsert (fun _ _ => none)
        ⟨"goracle", "ORDERS",
          [⟨"ID", true, false, [("AUTO_INCREMENT", "AUTO_INCREMENT")], 7⟩,
            ⟨"ID", true, true, [("AUTO_INCREMENT", "AUTO_INCREMENT")], 0⟩], []⟩
        ⟨true, some [⟨"ORDERS", 3⟩], [], []⟩).1.fields =
      [⟨"ID", true, false, [("AUTO_INCREMENT", "AUTO_INCREMENT")], 4⟩,
        ⟨"ID", true, true, [("AUTO_INCREMENT", "AUTO_INCREMENT")], 0⟩] ∧
    ((runCalls [("AUTO_INCREMENT", scopeFor "ORDERS")]
          ⟨true, some [⟨"ORDERS", 9007199254740991⟩], [], []⟩).1 =
        [(9007199254740992, true)] ∧
      (setIdentityInsert (fun _ _ => none)
          ⟨"goracle", "ORDERS",
            [⟨"ID", true, true, [("AUTO_INCREMENT", "AUTO_INCREMENT")], 0⟩], []⟩
          (runCalls [("AUTO_INCREMENT", scopeFor "ORDERS")]
            ⟨true, some [⟨"ORDERS", 9007199254740991⟩], [], []⟩).2).1.fields =
        [⟨"ID", true, false, [("AUTO_INCREMENT", "AUTO_INCREMENT")], 9007199254740992⟩]) ∧
    ((runCalls [("AUTO_INCREMENT", scopeFor "")] ⟨true, some [], [], []⟩).1 = [(1, true)] ∧
      (setIdentityInsert (fun _ _ => none)
          ⟨"goracle", "", [⟨"ID", true, true, [("AUTO_INCREMENT", "AUTO_INCREMENT")], 0⟩], []⟩
          (runCalls [("AUTO_INCREMENT", scopeFor "")] ⟨true, some [], [], []⟩).2).1.fields =
        [⟨"ID", true, false, [("AUTO_INCREMENT", "AUTO_INCREMENT")], 1⟩]) ∧
    ((runCalls [("AUTO_INCREMENT", scopeFor "ORDERS")] ⟨true, none, [], []⟩).1 = [(1, true)] ∧
      (setIdentityInsert (fun _ _ => none)
          ⟨"goracle", "ORDERS",
            [⟨"ID", true, true, [("AUTO_INCREMENT", "AUTO_INCREMENT")], 0⟩], []⟩
          (runCalls [("AUTO_INCREMENT", scopeFor "ORDERS")] ⟨true, none, [], []⟩).2).1.fields =
        [⟨"ID", true, false, [("AUTO_INCREMENT", "AUTO_INCREMENT")], 1⟩]) := by
  decide

/-! ## Type mapping and row limits: claims C7 and C10 -/

theorem append_ne_empty (a b : String) (h : a ≠ "") : a ++ b ≠ "" := by
  intro e
  apply h
  have hd : (a ++ b).data = [] := by rw [e]
  rw [String.data_append] at hd
  exact String.ext (List.append_eq_nil.mp hd).1

theorem sqlTypeOf_override (p : ParsedField) (h : p.sqlType ≠ "") :
    sqlTypeOf p = p.sqlType := by
  unfold sqlTypeOf
  have : (p.sqlType == "") = false := by simpa using h
  rw [this]
  rfl

/-- Without a configured type the chosen type is empty exactly for the kinds that are
not recognized. -/
theorem sqlTypeOf_empty_iff (p : ParsedField) (h : p.sqlType = "") :
    sqlTypeOf p = "" ↔ ¬ recognized p.dataValue := by
  have hv : ∀ n : Int, "VARCHAR(" ++ toString n ++ ")" ≠ "" := fun n =>
    append_ne_empty _ _ (append_ne_empty _ _ (by decide))
  unfold sqlTypeOf recognized IsByteArrayOrSlice
  rw [h]
  cases hk : p.dataValue.kind <;> cases ht : p.dataValue.isTime <;>
    cases he : p.dataValue.elemIsUint8 <;> simp <;> split <;> simp [hv]

/-- C7: `DataTypeOf` panics if and only if no SQL type is configured for the field and
its kind is not recognized (not a boolean, an integer of any width, a float, a string, a
`time.Time` struct, or a byte array or slice).  In every other case it returns a
non-empty string: the chosen type alone when the additional type text is blank, the
chosen type followed by a blank and that text otherwise, where the chosen type is the
configured one, or CHAR(1) / INTEGER / NUMBER / FLOAT / VARCHAR(n) or CLOB / DATE / BLOB
by the kind of the field. -/
theorem C7_DataTypeOf_panics_iff_unrecognized (p : ParsedField) :
    (DataTypeOf p = none ↔ (p.sqlType = "" ∧ ¬ recognized p.dataValue)) ∧
    (∀ t, DataTypeOf p = some t →
      t ≠ "" ∧
      ((TrimSpace p.additionalType = "" ∧ t = sqlTypeOf p) ∨
        (TrimSpace p.additionalType ≠ "" ∧ t = sqlTypeOf p ++ " " ++ p.additionalType))) ∧
    (p.sqlType ≠ "" → sqlTypeOf p = p.sqlType) ∧
    (p.sqlType = "" →
      (p.dataValue.kind = Kind.Bool → sqlTypeOf p = "CHAR(1)") ∧
      ((p.dataValue.kind = Kind.Int ∨ p.dataValue.kind = Kind.Int8 ∨
          p.dataValue.kind = Kind.Int16 ∨ p.dataValue.kind = Kind.Int32 ∨
          p.dataValue.kind = Kind.Uint ∨ p.dataValue.kind = Kind.Uint8 ∨
          p.dataValue.kind = Kind.Uint16 ∨ p.dataValue.kind = Kind.Uint32 ∨
          p.dataValue.kind = Kind.Uintptr) → sqlTypeOf p = "INTEGER") ∧
      ((p.dataValue.kind = Kind.Int64 ∨ p.dataValue.kind = Kind.Uint64) →
        sqlTypeOf p = "NUMBER") ∧
      ((p.dataValue.kind = Kind.Float32 ∨ p.dataValue.kind = Kind.Float64) →
        sqlTypeOf p = "FLOAT") ∧
      (p.dataValue.kind = Kind.String → 0 < p.size → p.size < 4000 →
        sqlTypeOf p = "VARCHAR(" ++ toString p.size ++ ")") ∧
      (p.dataValue.kind = Kind.String → (p.size ≤ 0 ∨ 4000 ≤ p.size) →
        sqlTypeOf p = "CLOB") ∧
      (p.dataValue.kind = Kind.Struct → p.dataValue.isTime = true → sqlTypeOf p = "DATE") ∧
      ((p.dataValue.kind = Kind.Array ∨ p.dataValue.kind = Kind.Slice) →
        p.dataValue.elemIsUint8 = true → sqlTypeOf p = "BLOB")) := by
  refine ⟨?_, ?_, sqlTypeOf_override p, ?_⟩
  · unfold DataTypeOf
    by_cases hs : p.sqlType = ""
    · rw [← sqlTypeOf_empty_iff p hs]
      by_cases he : sqlTypeOf p = ""
      · simp [he, hs]
      · have : (sqlTypeOf p == "") = false := by simpa using he
        simp only [this, Bool.false_eq_true, if_false]
        constructor
        · intro h; split at h <;> exact Option.noConfusion h
        · intro h; exact absurd h.2 he
    · have he : sqlTypeOf p ≠ "" := by rw [sqlTypeOf_override p hs]; exact hs
      have : (sqlTypeOf p == "") = false := by simpa using he
      simp only [this, Bool.false_eq_true, if_false]
      constructor
      · intro h; split at h <;> exact Option.noConfusion h
      · intro h; exact absurd h.1 hs
  · intro t ht
    unfold DataTypeOf at ht
    by_cases he : sqlTypeOf p = ""
    · simp [he] at ht
    · have h1 : (sqlTypeOf p == "") = false := by simpa using he
      simp only [h1, Bool.false_eq_true, if_false] at ht
      by_cases ha : TrimSpace p.additionalType = ""
      · have h2 : (TrimSpace p.additionalType == "") = true := by simpa using ha
        rw [if_pos h2] at ht
        have := Option.some.inj ht
        subst this
        exact ⟨he, Or.inl ⟨ha, rfl⟩⟩
      · have h2 : ¬ ((TrimSpace p.additionalType == "") = true) := by simpa using ha
        rw [if_neg h2] at ht
        have := Option.some.inj ht
        subst this
        exact ⟨append_ne_empty _ _ (append_ne_empty _ _ he), Or.inr ⟨ha, rfl⟩⟩
  · intro hs
    have hb : (p.sqlType == "") = true := by simpa using hs
    unfold sqlTypeOf IsByteArrayOrSlice
    rw [if_pos hb]
    refine ⟨?_, ?_, ?_, ?_, ?_, ?_, ?_, ?_⟩
    · intro h; rw [h]
    · intro h; rcases h with h | h | h | h | h | h | h | h | h <;> rw [h]
    · intro h; rcases h with h | h <;> rw [h]
    · intro h; rcases h with h | h <;> rw [h]
    · intro h h1 h2; rw [h]; simp [h1, h2]
    · intro h h1; rw [h]
      have : ¬ (0 < p.size ∧ p.size < 4000) := by omega
      simp [this]
    · intro h h1; rw [h]; simp [h1]
    · intro h h1; rcases h with h | h <;> rw [h] <;> simp [h1]

/-- Instances of C7: a `map` field without a configured type panics; a sized string with
the additional text "NOT NULL" maps to "VARCHAR(255) NOT NULL". -/
theorem C7_DataTypeOf_panics_iff_unrecognized_witness :
    DataTypeOf ⟨⟨Kind.Map, false, false⟩, "", 0, " "⟩ = none ∧
    DataTypeOf ⟨⟨Kind.String, false, false⟩, "", 255, "NOT NULL"⟩ =
      some "VARCHAR(255) NOT NULL" ∧
    DataTypeOf ⟨⟨Kind.Map, false, false⟩, "JSON", 0, " "⟩ = some "JSON" :=
  ⟨(C7_DataTypeOf_panics_iff_unrecognized ⟨⟨Kind.Map, false, false⟩, "", 0, " "⟩).1.mpr
      ⟨rfl, by unfold recognized; decide⟩,
    by decide, by decide⟩

/-- C10: `LimitWhereSQL` returns " AND (ROWNUM <= n)" when the limit is not nil and its
printed form parses as an integer `n ≥ 0`, zero included, and the empty string for a nil
limit, for a negative `n` and for a printed form that does not parse; `LimitAndOffsetSQL`
returns the empty string for every limit and offset. -/
theorem C10_limit_clauses (parseInt : String → Option Int) (limit offset : Option String) :
    (∀ p n, limit = some p → parseInt p = some n → 0 ≤ n →
      LimitWhereSQL parseInt limit = " AND (ROWNUM <= " ++ toString n ++ ")") ∧
    (limit = none → LimitWhereSQL parseInt limit = "") ∧
    (∀ p n, limit = some p → parseInt p = some n → n < 0 →
      LimitWhereSQL parseInt limit = "") ∧
    (∀ p, limit = some p → parseInt p = none → LimitWhereSQL parseInt limit = "") ∧
    LimitAndOffsetSQL limit offset = "" := by
  refine ⟨?_, ?_, ?_, ?_, rfl⟩
  · intro p n hl hp hn
    subst hl
    simp only [LimitWhereSQL, hp, ge_iff_le, hn, if_true]
  · intro hl
    subst hl
    rfl
  · intro p n hl hp hn
    subst hl
    have : ¬ (0 ≤ n) := by omega
    simp only [LimitWhereSQL, hp, ge_iff_le, this, if_false]
  · intro p hl hp
    subst hl
    simp only [LimitWhereSQL, hp]

/-- Instances of C10 with a parser that reads "10", "0" and "-1". -/
theorem C10_limit_clauses_witness :
    LimitWhereSQL (fun p => if p = "10" then some 10 else if p = "0" then some 0
        else if p = "-1" then some (-1) else none) (some "10") = " AND (ROWNUM <= 10)" ∧
    LimitWhereSQL (fun p => if p = "10" then some 10 else if p = "0" then some 0
        else if p = "-1" then some (-1) else none) (some "0") = " AND (ROWNUM <= 0)" ∧
    LimitWhereSQL (fun p => if p = "10" then some 10 else if p = "0" then some 0
        else if p = "-1" then some (-1) else none) (some "-1") = "" ∧
    LimitWhereSQL (fun p => if p = "10" then some 10 else if p = "0" then some 0
        else if p = "-1" then some (-1) else none) (some "ten") = "" :=
  ⟨((C10_limit_clauses (fun p => if p = "10" then some 10 else if p = "0" then some 0
        else if p = "-1" then some (-1) else none) (some "10") none).1
      "10" 10 rfl (by decide) (by decide)).trans (by decide),
    by decide, by decide, by decide⟩

end Oracle

